import Mathlib

/-!
Shallow embedding of the quality-checking core of the repository
(`src/rules_checker.py`, track construction in `src/batch_processor.py`).

Numeric values carried by objects and poses are modelled as real numbers;
nanosecond timestamps and point counts as integers; Python dictionaries
holding poses as `Option`-valued lookup functions; Python `None` defaults as
`Option` fields.  Each definition follows the corresponding Python function
statement by statement; deviations forced by the modelling (e.g. closed
forms for `while` loops) are noted at the definition.
-/

open Real

namespace RulesChecker

/-- A 3-vector of reals, modelling a `numpy` array of length 3. -/
structure Vec3 where
  x : ℝ
  y : ℝ
  z : ℝ

instance : Add Vec3 := ⟨fun a b => ⟨a.x + b.x, a.y + b.y, a.z + b.z⟩⟩

instance : Sub Vec3 := ⟨fun a b => ⟨a.x - b.x, a.y - b.y, a.z - b.z⟩⟩

instance : Zero Vec3 := ⟨⟨0, 0, 0⟩⟩

/-- Scalar multiple of a `Vec3` (`pos * weight` in the Python code). -/
noncomputable def Vec3.scale (c : ℝ) (v : Vec3) : Vec3 := ⟨c * v.x, c * v.y, c * v.z⟩

/-- `np.linalg.norm(v[:2])`: the planar (XY) Euclidean norm. -/
noncomputable def planarNorm (v : Vec3) : ℝ := Real.sqrt (v.x ^ 2 + v.y ^ 2)

/-- `np.linalg.norm(v)`: the full 3D Euclidean norm. -/
noncomputable def norm3 (v : Vec3) : ℝ := Real.sqrt (v.x ^ 2 + v.y ^ 2 + v.z ^ 2)

/-- One entry of `ins.json`: ego pose in UTM coordinates, with a nanosecond
timestamp (`timestamp_nanosec`).  Mirrors the keys read by
`rules_checker.py`; the `.get(key, default)` accesses in the Python code are
modelled by the fields being present. -/
structure Ins where
  utm_x : ℝ
  utm_y : ℝ
  utm_z : ℝ
  qw : ℝ
  qx : ℝ
  qy : ℝ
  qz : ℝ
  timestamp : ℤ

/-- An annotated object (one Python dict from the per-frame object list).
`timestamp` is optional exactly as in the Python code, where
`obj.get('timestamp', ...)` supplies a default. -/
structure Obj where
  translation : Vec3
  rotation : List ℝ
  size : List ℝ
  numLidarPts : ℤ
  cls : String
  timestamp : Option ℤ
  instToken : Option String

/-- Whether the first character list is a prefix of the second. -/
def listIsPre : List Char → List Char → Bool
  | [], _ => true
  | _ :: _, [] => false
  | c :: cs, d :: ds => c == d && listIsPre cs ds

/-- Whether the needle occurs as a contiguous run at any position. -/
def strContainsAux (needle : List Char) : List Char → Bool
  | [] => listIsPre needle []
  | d :: ds => listIsPre needle (d :: ds) || strContainsAux needle ds

/-- Python substring containment `needle in hay`. -/
def strContains (hay needle : String) : Bool := strContainsAux needle.toList hay.toList

/-- ASCII case lowering of one character, modelling Python `str.lower` on
the class-label repertoire. -/
def charToLower (c : Char) : Char :=
  if 'A' ≤ c ∧ c ≤ 'Z' then Char.ofNat (c.toNat + 32) else c

/-- `s.lower()`. -/
def strLower (s : String) : String := String.mk (s.toList.map charToLower)

/-- `obj.get('attribute_tokens', {}).get('Class', 'unknown').lower()`. -/
def objClassOf (o : Obj) : String := strLower o.cls

/-- `any(vc in obj_class for vc in vehicle_classes)` with the class list
`['vehicle', 'car', 'truck', 'bus', 'motorcycle', 'bicycle']`. -/
def isVehicleClass (objClass : String) : Bool :=
  strContains objClass "vehicle" || strContains objClass "car" ||
  strContains objClass "truck" || strContains objClass "bus" ||
  strContains objClass "motorcycle" || strContains objClass "bicycle"

/-- `self.low_speed_threshold = 0.5` (m/s). -/
noncomputable def lowSpeedThreshold : ℝ := 0.5

/-- `self.static_threshold = 0.1` (m/s). -/
noncomputable def staticThreshold : ℝ := 0.1

/-- `self.angle_tolerance = 0.5236` (rad). -/
noncomputable def angleTolerance : ℝ := 0.5236

/-- `self.min_track_length = 3`. -/
def minTrackLength : ℕ := 3

/-- Motion regime returned by `classify_motion_state`. -/
inductive MotionState where
  | static
  | low_speed
  | normal_speed
deriving DecidableEq

/-- `classify_motion_state(velocity)`. -/
noncomputable def classifyMotionState (velocity : ℝ) : MotionState :=
  if velocity < staticThreshold then .static
  else if velocity < lowSpeedThreshold then .low_speed
  else .normal_speed

/-- `math.atan2(y, x)`, modelled as the argument of the complex number
`x + y*i`.  Both have range `(-π, π]` away from the origin, agree on all
quadrants and axes, and both send `(0, 0)` to `0`. -/
noncomputable def atan2 (y x : ℝ) : ℝ := Complex.arg ⟨x, y⟩

/-- `get_euler_angles(q)` for `q = [w, x, y, z]`, returning
`(roll, pitch, yaw)`.  `math.copysign(math.pi / 2, sinp)` on the branch
`abs(sinp) >= 1` is `π/2` with the sign of `sinp`. -/
noncomputable def getEulerAngles (w x y z : ℝ) : ℝ × ℝ × ℝ :=
  let sinr_cosp := 2 * (w * x + y * z)
  let cosr_cosp := 1 - 2 * (x * x + y * y)
  let roll := atan2 sinr_cosp cosr_cosp
  let sinp := 2 * (w * y - z * x)
  let pitch := if 1 ≤ |sinp| then (if sinp < 0 then -(π / 2) else π / 2) else Real.arcsin sinp
  let siny_cosp := 2 * (w * z + x * y)
  let cosy_cosp := 1 - 2 * (y * y + z * z)
  let yaw := atan2 siny_cosp cosy_cosp
  (roll, pitch, yaw)

/-- `quaternion_to_rotation_matrix(q)` applied to a vector: the product
`R @ pos` with the matrix of `rules_checker.py` lines 268-272. -/
noncomputable def quatRotate (w x y z : ℝ) (v : Vec3) : Vec3 :=
  ⟨(1 - 2 * (y * y + z * z)) * v.x + (2 * (x * y - w * z)) * v.y + (2 * (x * z + w * y)) * v.z,
   (2 * (x * y + w * z)) * v.x + (1 - 2 * (x * x + z * z)) * v.y + (2 * (y * z - w * x)) * v.z,
   (2 * (x * z - w * y)) * v.x + (2 * (y * z + w * x)) * v.y + (1 - 2 * (x * x + y * y)) * v.z⟩

/-- `transform_to_world(pos_ego, ins_entry)`: `R_ego @ pos_ego + ego_utm`. -/
noncomputable def transformToWorld (posEgo : Vec3) (ins : Ins) : Vec3 :=
  quatRotate ins.qw ins.qx ins.qy ins.qz posEgo + ⟨ins.utm_x, ins.utm_y, ins.utm_z⟩

/-- The position of a track sample used by the checkers: the world transform
when an INS entry resolves for the frame, the raw ego-frame translation
otherwise (`pos_world = self.transform_to_world(...) ... else pos_ego`). -/
noncomputable def worldPos (poses : ℤ → Option Ins) (fid : ℤ) (o : Obj) : Vec3 :=
  match poses fid with
  | some ins => transformToWorld o.translation ins
  | none => o.translation

/-- Closed form of `while diff > math.pi: diff -= 2 * math.pi`: subtract
`2π` the minimal number of times needed to land at or below `π`. -/
noncomputable def wrapDown (d : ℝ) : ℝ := d - 2 * π * (⌈(d - π) / (2 * π)⌉₊ : ℝ)

/-- Closed form of `while diff < -math.pi: diff += 2 * math.pi`: add `2π`
the minimal number of times needed to land at or above `-π`. -/
noncomputable def wrapUp (d : ℝ) : ℝ := d + 2 * π * (⌈(-π - d) / (2 * π)⌉₊ : ℝ)

/-- The angle-difference normalization of `check_motion_alignment` lines
410-415: both wrap loops followed by `abs`. -/
noncomputable def normalizeAngle (d : ℝ) : ℝ := |wrapUp (wrapDown d)|

/-!  `get_ins_interpolated`.  The Python `_ins_index` dict (timestamp →
entry) is modelled as a list of entries; theorems about it assume the
timestamps are distinct, which the dict guarantees. -/

/-- Dict lookup `self._ins_index[t]` / membership `t in self._ins_index`. -/
def findByTs (idx : List Ins) (t : ℤ) : Option Ins := idx.find? (fun e => e.timestamp == t)

/-- The scan over `sorted(self._ins_index.keys())` leaves `prev_ts` holding
the last key strictly below the target, i.e. the maximum such key. -/
def prevTs (idx : List Ins) (t : ℤ) : Option ℤ :=
  ((idx.map Ins.timestamp).filter (fun ts => ts < t)).max?

/-- The same scan breaks at the first key strictly above the target, i.e.
the minimum such key. -/
def nextTs (idx : List Ins) (t : ℤ) : Option ℤ :=
  ((idx.map Ins.timestamp).filter (fun ts => t < ts)).min?

/-- `get_ins_interpolated(timestamp)`.  The branch with `prev_ts` and
`next_ts` both absent is unreachable in Python for a nonempty index with no
exact match; it is modelled as `none`.  The inner lookups of
`self._ins_index[prev_ts]` / `[next_ts]` always succeed in Python since the
keys come from the index; the unreachable `none` arms return `none`. -/
noncomputable def getInsInterpolated (idx : List Ins) (t : ℤ) : Option Ins :=
  if idx.isEmpty then none
  else
    match findByTs idx t with
    | some e => some e
    | none =>
      match prevTs idx t, nextTs idx t with
      | none, none => none
      | none, some nt => if 100000000 < |nt - t| then none else findByTs idx nt
      | some pt, none => if 100000000 < |t - pt| then none else findByTs idx pt
      | some pt, some nt =>
        if 100000000 < |t - pt| ∨ 100000000 < |nt - t| then none
        else
          match findByTs idx pt, findByTs idx nt with
          | some pe, some ne =>
            let total : ℤ := nt - pt
            let ratio : ℝ := if 0 < total then ((t - pt : ℤ) : ℝ) / ((total : ℤ) : ℝ) else 0
            let ux := pe.utm_x + ratio * (ne.utm_x - pe.utm_x)
            let uy := pe.utm_y + ratio * (ne.utm_y - pe.utm_y)
            let uz := pe.utm_z + ratio * (ne.utm_z - pe.utm_z)
            let iq0 := pe.qw + ratio * (ne.qw - pe.qw)
            let iq1 := pe.qx + ratio * (ne.qx - pe.qx)
            let iq2 := pe.qy + ratio * (ne.qy - pe.qy)
            let iq3 := pe.qz + ratio * (ne.qz - pe.qz)
            let nrm := Real.sqrt (iq0 * iq0 + iq1 * iq1 + iq2 * iq2 + iq3 * iq3)
            if 0 < nrm then
              some ⟨ux, uy, uz, iq0 / nrm, iq1 / nrm, iq2 / nrm, iq3 / nrm, t⟩
            else
              some ⟨ux, uy, uz, iq0, iq1, iq2, iq3, t⟩
          | _, _ => none

/-!  `_estimate_motion_vector` and `check_motion_alignment`. -/

/-- The `(position, weight)` contribution of track index `i`, empty when the
index is out of bounds (the Python `if` guards around each `track[...]`).
The position is world-transformed when an INS entry resolves for the
sample's frame id, exactly as in the Python loop bodies. -/
noncomputable def sampleList (track : List (ℤ × Obj)) (poses : ℤ → Option Ins)
    (i : ℕ) (w : ℝ) : List (Vec3 × ℝ) :=
  match track[i]? with
  | some (fid, o) => [(worldPos poses fid o, w)]
  | none => []

/-- `_estimate_motion_vector(track, frame_idx, frame_to_ins)`.  The entries
list collects the anchor (weight `1.0`), then offsets `-1, -2` (guarded by
`frame_idx + offset >= 0`), then offsets `+1, +2` (guarded by
`frame_idx + offset < len(track)`), with weights `0.5 ** |offset|`.
`positions.getD 1 weightedPos` is `positions[1] if len(positions) > 1 else
weighted_pos`; the last element is taken the same way. -/
noncomputable def estimateMotionVector (track : List (ℤ × Obj)) (frameIdx : ℕ)
    (poses : ℤ → Option Ins) : Option Vec3 :=
  match track[frameIdx]? with
  | none => none
  | some (cfid, cobj) =>
    let curr := worldPos poses cfid cobj
    let entries : List (Vec3 × ℝ) :=
      (curr, 1.0) ::
        ((if 1 ≤ frameIdx then sampleList track poses (frameIdx - 1) 0.5 else []) ++
         (if 2 ≤ frameIdx then sampleList track poses (frameIdx - 2) 0.25 else []) ++
         sampleList track poses (frameIdx + 1) 0.5 ++
         sampleList track poses (frameIdx + 2) 0.25)
    let positions := entries.map Prod.fst
    let weights := entries.map Prod.snd
    if positions.length < 2 then none
    else
      let totalWeight := weights.foldl (· + ·) 0
      let weightedPos :=
        Vec3.scale (1 / totalWeight)
          (entries.foldl (fun acc pw => acc + Vec3.scale pw.2 pw.1) 0)
      let prevP := positions.getD 1 weightedPos
      let nextP := if 1 < positions.length then positions.getLastD weightedPos else weightedPos
      if 0 < frameIdx ∧ frameIdx + 1 < track.length then some (nextP - prevP)
      else if 0 < frameIdx then some (curr - prevP)
      else if frameIdx + 1 < track.length then some (nextP - curr)
      else none

/-- The regime-dependent `min_motion_threshold` of `check_motion_alignment`. -/
noncomputable def minMotionThreshold : MotionState → ℝ
  | .static => 0.05
  | .low_speed => 0.1
  | .normal_speed => 0.2

/-- The regime-dependent scaling of `self.angle_tolerance` in
`check_motion_alignment` (`* 1.5` static, unscaled low-speed, `* 0.8`
normal-speed). -/
noncomputable def toleranceScale : MotionState → ℝ
  | .static => 1.5
  | .low_speed => 1
  | .normal_speed => 0.8

/-- The annotated heading in world frame: `ego_yaw + obj_yaw_ego` when an
INS entry resolves for the anchor (the Python code looks it up under the
track *index* `frame_idx`, not the frame id), else `obj_yaw_ego`. -/
noncomputable def annotYawWorld (poses : ℤ → Option Ins) (frameIdx : ℕ)
    (w x y z : ℝ) : ℝ :=
  let objYawEgo := (getEulerAngles w x y z).2.2
  match poses (frameIdx : ℤ) with
  | some ins => (getEulerAngles ins.qw ins.qx ins.qy ins.qz).2.2 + objYawEgo
  | none => objYawEgo

/-- A reported quality problem.  Each constructor carries the numeric data
that the corresponding Python message interpolates (angles kept in
radians; the messages render some of them in degrees). -/
inductive Issue where
  | tooFewPoints (n : ℤ)
  | lengthAnomaly (v : ℝ)
  | widthAnomaly (v : ℝ)
  | heightAnomaly (v : ℝ)
  | quatNotNormalized (nrm : ℝ)
  | rollAnomaly (v : ℝ)
  | pitchAnomaly (v : ℝ)
  | accAnomaly (seg : ℕ) (acc : ℝ)
  | frequentStateSwitch (n : ℕ) (len : ℕ)
  | discontinuity (i : ℕ) (speed : ℝ)
  | staticJump (i : ℕ) (dist : ℝ)
  | abruptTurn (i : ℕ) (angle : ℝ)
  | headingInconsistent (state : MotionState) (diff : ℝ) (speed : ℝ)
  | reversing (speed : ℝ)

/-- `check_motion_alignment(obj, track, frame_idx, frame_to_ins)`. -/
noncomputable def checkMotionAlignment (obj : Obj) (track : List (ℤ × Obj))
    (frameIdx : ℕ) (poses : ℤ → Option Ins) : List Issue :=
  if ¬ isVehicleClass (objClassOf obj) then []
  else
    match estimateMotionVector track frameIdx poses with
    | none => []
    | some mv =>
      let dist := planarNorm mv
      let motionSpeed := dist / 0.1
      let state := classifyMotionState motionSpeed
      let tol := angleTolerance * toleranceScale state
      if dist < minMotionThreshold state then []
      else
        let motionYaw := atan2 mv.y mv.x
        match obj.rotation with
        | [w, x, y, z] =>
          let diff := normalizeAngle (motionYaw - annotYawWorld poses frameIdx w x y z)
          if ¬ diff < tol ∧ ¬ |diff - π| < tol then
            [Issue.headingInconsistent state diff motionSpeed]
          else if |diff - π| < tol ∧ staticThreshold < motionSpeed then
            [Issue.reversing motionSpeed]
          else []
        | _ => []

/-!  `check_trajectory_consistency`.  The four numbered sections of the
Python function are split into one definition each; the main definition
concatenates their results in source order. -/

/-- The `velocities` list: for each interval `i-1 → i`, the planar speed,
appended only when `dt > 0` (zero or negative gaps are skipped). -/
noncomputable def velList (positions : List Vec3) (timestamps : List ℤ) : List ℝ :=
  (List.range' 1 (positions.length - 1)).filterMap (fun i =>
    let dt : ℝ := ((timestamps.getD i 0 - timestamps.getD (i - 1) 0 : ℤ) : ℝ) / 1000000000
    if 0 < dt then some (planarNorm (positions.getD i 0 - positions.getD (i - 1) 0) / dt)
    else none)

/-- Section 1 (`轨迹加速度异常`): `speed_changes` pairs consecutive entries
of `velocities` with the timestamp gap at index `i → i+1` (defaulting to
`0.1` s past the end of `timestamps`), keeping `abs(acc)` when `dt > 0`;
an issue is reported per enumerated entry exceeding `3.0`. -/
noncomputable def accIssues (timestamps : List ℤ) (velocities : List ℝ) : List Issue :=
  if 1 < velocities.length then
    let speedChanges := (List.range' 1 (velocities.length - 1)).filterMap (fun i =>
      let dt : ℝ :=
        if i + 1 < timestamps.length then
          ((timestamps.getD (i + 1) 0 - timestamps.getD i 0 : ℤ) : ℝ) / 1000000000
        else 0.1
      if 0 < dt then some |(velocities.getD i 0 - velocities.getD (i - 1) 0) / dt| else none)
    speedChanges.enum.filterMap (fun p =>
      if 3.0 < p.2 then some (Issue.accAnomaly (p.1 + 1) p.2) else none)
  else []

/-- The number of adjacent unequal entries of the motion-state sequence. -/
def countTransitions (states : List MotionState) : ℕ :=
  (states.zip states.tail).countP (fun p => decide (¬ p.1 = p.2))

/-- Section 2 (`运动状态频繁切换`): more transitions than
`len(velocities) * 0.6` is reported. -/
noncomputable def transitionIssues (velocities : List ℝ) : List Issue :=
  let states := velocities.map classifyMotionState
  let n := countTransitions states
  if (velocities.length : ℝ) * 0.6 < (n : ℝ) then
    [Issue.frequentStateSwitch n velocities.length]
  else []

/-- Section 3 (`轨迹不连续` / `静止状态下位置跳跃`): per interval with
`dt > 0`, an implied 3D speed above `8.0` is reported, and — only when
`i < len(velocities)` — an interval whose recorded planar speed
`velocities[i-1]` is below the static threshold but whose 3D displacement
exceeds `0.5` m is reported as a static-state position jump. -/
noncomputable def continuityIssues (positions : List Vec3) (timestamps : List ℤ)
    (velocities : List ℝ) : List Issue :=
  (List.range' 1 (positions.length - 1)).flatMap (fun i =>
    let dist := norm3 (positions.getD i 0 - positions.getD (i - 1) 0)
    let dt : ℝ := ((timestamps.getD i 0 - timestamps.getD (i - 1) 0 : ℤ) : ℝ) / 1000000000
    if 0 < dt then
      (if 8.0 < dist / dt then [Issue.discontinuity i (dist / dt)] else []) ++
      (if i < velocities.length ∧ velocities.getD (i - 1) 0 < staticThreshold ∧ 0.5 < dist then
        [Issue.staticJump i dist]
      else [])
    else [])

/-- Section 4 (`轨迹方向突变`): headings of intervals with planar
displacement above `0.01`, compared pairwise with wrap-around, reporting
shorter-arc changes above `π/2`. -/
noncomputable def turnIssues (positions : List Vec3) (velocities : List ℝ) : List Issue :=
  if 2 < velocities.length then
    let directions := (List.range' 1 (positions.length - 1)).filterMap (fun i =>
      let vec := positions.getD i 0 - positions.getD (i - 1) 0
      if 0.01 < planarNorm vec then some (atan2 vec.y vec.x) else none)
    if 1 < directions.length then
      (List.range' 1 (directions.length - 1)).filterMap (fun i =>
        let ad := |directions.getD i 0 - directions.getD (i - 1) 0|
        let ad2 := min ad (2 * π - ad)
        if π / 2 < ad2 then some (Issue.abruptTurn i ad2) else none)
    else []
  else []

/-- `check_trajectory_consistency(track, frame_to_ins)`.  A sample's
timestamp defaults to `frame_idx * 100000000` (the assumed 10 Hz spacing)
where `frame_idx` is the frame identifier carried in the track tuple. -/
noncomputable def checkTrajectoryConsistency (track : List (ℤ × Obj))
    (poses : ℤ → Option Ins) : List Issue :=
  if track.length < minTrackLength then []
  else
    let positions := track.map (fun s => worldPos poses s.1 s.2)
    let timestamps := track.map (fun s => s.2.timestamp.getD (s.1 * 100000000))
    let velocities := velList positions timestamps
    accIssues timestamps velocities ++ transitionIssues velocities ++
      continuityIssues positions timestamps velocities ++ turnIssues positions velocities

/-!  `RuleChecker.__init__` and `check_object`.  The configuration is a
nest of dictionaries; required entries that may be absent are `Option`
fields, and a Python `KeyError` is an `Except.error` naming the key. -/

/-- One per-class size rule (`length_range` / `width_range` /
`height_range`, each a `[lo, hi]` pair). -/
structure SizeRule where
  length_range : ℝ × ℝ
  width_range : ℝ × ℝ
  height_range : ℝ × ℝ

/-- The `config['rules']` section, with each required entry optional so
that its absence is representable. -/
structure RulesSection where
  min_lidar_points : Option ℤ
  vehicle : Option SizeRule
  pedestrian : Option SizeRule
  cone : Option SizeRule
  sign : Option SizeRule

/-- The whole configuration as consumed by `RuleChecker`. -/
structure Config where
  rules : Option RulesSection

/-- A `KeyError` escaping the checker. -/
inductive ConfigError where
  | missingRules
  | missingKey (k : String)
deriving DecidableEq

/-- `RuleChecker.__init__`: the only configuration access at construction
time is `self.rules = config['rules']`, which raises iff the `rules`
section is absent. -/
def ruleCheckerInit (c : Config) : Except ConfigError RulesSection :=
  match c.rules with
  | some r => .ok r
  | none => .error .missingRules

/-- The `if/elif` chain of `check_object` selecting a size rule set by
class keyword (first match wins, unmatched classes select none); a matched
but absent entry raises `KeyError`. -/
noncomputable def selectSizeRule (rules : RulesSection) (objClass : String) :
    Except ConfigError (Option SizeRule) :=
  if strContains objClass "vehicle" then
    match rules.vehicle with
    | some r => .ok (some r)
    | none => .error (.missingKey "vehicle")
  else if strContains objClass "pedestrian" then
    match rules.pedestrian with
    | some r => .ok (some r)
    | none => .error (.missingKey "pedestrian")
  else if strContains objClass "cone" then
    match rules.cone with
    | some r => .ok (some r)
    | none => .error (.missingKey "cone")
  else if strContains objClass "sign" then
    match rules.sign with
    | some r => .ok (some r)
    | none => .error (.missingKey "sign")
  else .ok none

/-- The size portion of `check_object`: runs only when `len(size) == 3`,
emitting one issue per axis outside its configured range. -/
noncomputable def sizeIssuesOf (rules : RulesSection) (objClass : String)
    (size : List ℝ) : Except ConfigError (List Issue) :=
  match size with
  | [l, w, h] =>
    match selectSizeRule rules objClass with
    | .error e => .error e
    | .ok none => .ok []
    | .ok (some rule) =>
      .ok ((if ¬ (rule.length_range.1 ≤ l ∧ l ≤ rule.length_range.2) then
              [Issue.lengthAnomaly l] else []) ++
           (if ¬ (rule.width_range.1 ≤ w ∧ w ≤ rule.width_range.2) then
              [Issue.widthAnomaly w] else []) ++
           (if ¬ (rule.height_range.1 ≤ h ∧ h ≤ rule.height_range.2) then
              [Issue.heightAnomaly h] else []))
  | _ => .ok []

/-- The rotation portion of `check_object`: runs only when
`len(rotation) == 4`; the quaternion-norm check, then the roll/pitch check
for classes containing `vehicle`. -/
noncomputable def rotationIssuesOf (objClass : String) (rotation : List ℝ) : List Issue :=
  match rotation with
  | [w, x, y, z] =>
    let nrm := Real.sqrt (w * w + x * x + y * y + z * z)
    (if 0.01 < |nrm - 1.0| then [Issue.quatNotNormalized nrm] else []) ++
    (if strContains objClass "vehicle" then
      let e := getEulerAngles w x y z
      (if 0.5 < |e.1| then [Issue.rollAnomaly e.1] else []) ++
      (if 0.5 < |e.2.1| then [Issue.pitchAnomaly e.2.1] else [])
    else [])
  | _ => []

/-- `check_object(obj)`.  `self.rules['min_lidar_points']` is read
unconditionally for every object, so its absence raises there; the size
and rotation sections follow in source order. -/
noncomputable def checkObject (rules : RulesSection) (obj : Obj) :
    Except ConfigError (List Issue) :=
  match rules.min_lidar_points with
  | none => .error (.missingKey "min_lidar_points")
  | some minPts =>
    let ptsIssues := if obj.numLidarPts < minPts then [Issue.tooFewPoints obj.numLidarPts] else []
    match sizeIssuesOf rules (objClassOf obj) obj.size with
    | .error e => .error e
    | .ok sizeIssues => .ok (ptsIssues ++ sizeIssues ++ rotationIssuesOf (objClassOf obj) obj.rotation)

/-- `true` exactly on the `quatNotNormalized` issues. -/
def issueIsQuatNorm : Issue → Bool
  | .quatNotNormalized _ => true
  | _ => false

/-!  Track construction in `BatchProcessor.process_all` (frame-keyed
catalog).  Frame identifiers are the string keys of the per-frame dict;
`tracks[inst_id].sort(key=lambda x: x[0])` is Python's stable ascending
sort by the raw frame-identifier string. -/

/-- Python string comparison: lexicographic on code points. -/
def charListLe : List Char → List Char → Bool
  | [], _ => true
  | _ :: _, [] => false
  | c :: cs, d :: ds => if c < d then true else if d < c then false else charListLe cs ds

/-- `a <= b` on Python strings. -/
def strLe (a b : String) : Bool := charListLe a.toList b.toList

/-- The sort key of `tracks[inst_id].sort(key=lambda x: x[0])`. -/
def trackLe (p q : String × Obj) : Prop := strLe p.1 q.1 = true

instance : DecidableRel trackLe := fun p q =>
  inferInstanceAs (Decidable (strLe p.1 q.1 = true))

/-- Appending an entry to the per-instance dict `tracks`, preserving
Python-dict insertion order for new keys. -/
def addTrack (tracks : List (String × List (String × Obj))) (inst : String)
    (e : String × Obj) : List (String × List (String × Obj)) :=
  match tracks with
  | [] => [(inst, [e])]
  | (k, l) :: rest =>
    if k = inst then (k, l ++ [e]) :: rest else (k, l) :: addTrack rest inst e

/-- The grouping loop of `process_all` over a frame-keyed catalog: objects
whose `instance_token` is absent or falsy (the empty string) are skipped. -/
def collectTracks (allData : List (String × List Obj)) : List (String × List (String × Obj)) :=
  allData.foldl (fun tracks fr =>
    fr.2.foldl (fun tr o =>
      match o.instToken with
      | some inst => if inst.isEmpty then tr else addTrack tr inst (fr.1, o)
      | none => tr) tracks) []

/-- `process_all` track construction: group, then stably sort each track
ascending by the raw frame-identifier string (Python `list.sort` is
stable; a stable ascending sort is modelled by insertion sort under the
non-strict key order). -/
def buildTracks (allData : List (String × List Obj)) : List (String × List (String × Obj)) :=
  (collectTracks allData).map (fun t => (t.1, List.insertionSort trackLe t.2))

/-- The (world-frame) position of track sample `j`; zero off the end of the
track (only used at indices shown to be in bounds). -/
noncomputable def wpAt (track : List (ℤ × Obj)) (poses : ℤ → Option Ins) (j : ℕ) : Vec3 :=
  match track[j]? with
  | some (fid, o) => worldPos poses fid o
  | none => 0

/-- The motion vector described by the specification's words, for
comparison with `estimateMotionVector`: the displacement between the
nearest usable forward sample and the nearest usable backward sample,
one-sided at track ends, each sample transformed to world frame. -/
noncomputable def specNearestMotionVector (track : List (ℤ × Obj)) (frameIdx : ℕ)
    (poses : ℤ → Option Ins) : Option Vec3 :=
  if frameIdx < track.length then
    if 0 < frameIdx then
      if frameIdx + 1 < track.length then
        some (wpAt track poses (frameIdx + 1) - wpAt track poses (frameIdx - 1))
      else some (wpAt track poses frameIdx - wpAt track poses (frameIdx - 1))
    else
      if frameIdx + 1 < track.length then
        some (wpAt track poses (frameIdx + 1) - wpAt track poses frameIdx)
      else none
  else none

/-!  Supporting lemmas. -/

theorem atan2_zero_of_nonneg {x : ℝ} (hx : 0 ≤ x) : atan2 0 x = 0 := by
  unfold atan2
  have h : (⟨x, 0⟩ : ℂ) = (x : ℂ) := Complex.ext (by simp) (by simp)
  rw [h]
  exact Complex.arg_ofReal_of_nonneg hx

theorem classify_eq_static_iff (v : ℝ) : classifyMotionState v = .static ↔ v < 0.1 := by
  unfold classifyMotionState staticThreshold lowSpeedThreshold
  split_ifs with h1 h2 <;> simp_all

theorem classify_eq_low_iff (v : ℝ) :
    classifyMotionState v = .low_speed ↔ 0.1 ≤ v ∧ v < 0.5 := by
  unfold classifyMotionState staticThreshold lowSpeedThreshold
  split_ifs with h1 h2 <;> simp_all

theorem classify_eq_normal_iff (v : ℝ) :
    classifyMotionState v = .normal_speed ↔ 0.5 ≤ v := by
  unfold classifyMotionState staticThreshold lowSpeedThreshold
  split_ifs with h1 h2 <;> simp_all
  linarith

theorem wrapDown_of_le {d : ℝ} (h : d ≤ π) : wrapDown d = d := by
  unfold wrapDown
  have h2π : (0 : ℝ) < 2 * π := by positivity
  rw [Nat.ceil_eq_zero.mpr (div_nonpos_of_nonpos_of_nonneg (by linarith) h2π.le)]
  simp

theorem wrapDown_le (d : ℝ) : wrapDown d ≤ π := by
  unfold wrapDown
  have h2π : (0 : ℝ) < 2 * π := by positivity
  have h1 : (d - π) / (2 * π) ≤ (⌈(d - π) / (2 * π)⌉₊ : ℝ) := Nat.le_ceil _
  have h2 := (div_le_iff₀ h2π).mp h1
  linarith

theorem wrapDown_gt {d : ℝ} (h : π < d) : -π < wrapDown d := by
  unfold wrapDown
  have h2π : (0 : ℝ) < 2 * π := by positivity
  have hx : 0 ≤ (d - π) / (2 * π) := div_nonneg (by linarith) h2π.le
  have h1 : (⌈(d - π) / (2 * π)⌉₊ : ℝ) < (d - π) / (2 * π) + 1 := Nat.ceil_lt_add_one hx
  have h2 : (⌈(d - π) / (2 * π)⌉₊ : ℝ) * (2 * π) < ((d - π) / (2 * π) + 1) * (2 * π) :=
    mul_lt_mul_of_pos_right h1 h2π
  rw [add_mul, div_mul_cancel₀ _ h2π.ne'] at h2
  linarith

theorem wrapUp_of_le {d : ℝ} (h : -π ≤ d) : wrapUp d = d := by
  unfold wrapUp
  have h2π : (0 : ℝ) < 2 * π := by positivity
  rw [Nat.ceil_eq_zero.mpr (div_nonpos_of_nonpos_of_nonneg (by linarith) h2π.le)]
  simp

theorem wrapUp_ge (d : ℝ) : -π ≤ wrapUp d := by
  unfold wrapUp
  have h2π : (0 : ℝ) < 2 * π := by positivity
  have h1 : (-π - d) / (2 * π) ≤ (⌈(-π - d) / (2 * π)⌉₊ : ℝ) := Nat.le_ceil _
  have h2 := (div_le_iff₀ h2π).mp h1
  linarith

theorem wrapUp_lt {d : ℝ} (h : d < -π) : wrapUp d < π := by
  unfold wrapUp
  have h2π : (0 : ℝ) < 2 * π := by positivity
  have hx : 0 ≤ (-π - d) / (2 * π) := div_nonneg (by linarith) h2π.le
  have h1 : (⌈(-π - d) / (2 * π)⌉₊ : ℝ) < (-π - d) / (2 * π) + 1 := Nat.ceil_lt_add_one hx
  have h2 : (⌈(-π - d) / (2 * π)⌉₊ : ℝ) * (2 * π) < ((-π - d) / (2 * π) + 1) * (2 * π) :=
    mul_lt_mul_of_pos_right h1 h2π
  rw [add_mul, div_mul_cancel₀ _ h2π.ne'] at h2
  linarith

theorem normalizeAngle_nonneg (d : ℝ) : 0 ≤ normalizeAngle d := abs_nonneg _

theorem normalizeAngle_le_pi (d : ℝ) : normalizeAngle d ≤ π := by
  unfold normalizeAngle
  have hle : wrapDown d ≤ π := wrapDown_le d
  by_cases h : -π ≤ wrapDown d
  · rw [wrapUp_of_le h]
    exact abs_le.mpr ⟨h, hle⟩
  · push_neg at h
    exact abs_le.mpr ⟨wrapUp_ge _, (wrapUp_lt h).le⟩

theorem normalizeAngle_zero : normalizeAngle 0 = 0 := by
  have hπ : (0 : ℝ) ≤ π := Real.pi_nonneg
  unfold normalizeAngle
  rw [wrapDown_of_le hπ, wrapUp_of_le (by linarith), abs_zero]

theorem eulerAngles_pure_yaw (θ : ℝ) :
    (getEulerAngles (Real.cos (θ / 2)) 0 0 (Real.sin (θ / 2))).1 = 0 ∧
    (getEulerAngles (Real.cos (θ / 2)) 0 0 (Real.sin (θ / 2))).2.1 = 0 := by
  unfold getEulerAngles
  constructor
  · show atan2 (2 * (Real.cos (θ / 2) * 0 + 0 * Real.sin (θ / 2))) (1 - 2 * (0 * 0 + 0 * 0)) = 0
    rw [show (2 : ℝ) * (Real.cos (θ / 2) * 0 + 0 * Real.sin (θ / 2)) = 0 by ring,
      show (1 : ℝ) - 2 * (0 * 0 + 0 * 0) = 1 by ring]
    exact atan2_zero_of_nonneg zero_le_one
  · show (if 1 ≤ |2 * (Real.cos (θ / 2) * 0 - Real.sin (θ / 2) * 0)| then _ else
      Real.arcsin (2 * (Real.cos (θ / 2) * 0 - Real.sin (θ / 2) * 0))) = 0
    rw [show (2 : ℝ) * (Real.cos (θ / 2) * 0 - Real.sin (θ / 2) * 0) = 0 by ring]
    norm_num [Real.arcsin_zero]

theorem sizeIssues_shape {rules : RulesSection} {cls : String} {size : List ℝ}
    {l : List Issue} (h : sizeIssuesOf rules cls size = .ok l) :
    ∀ i ∈ l, ∃ v, i = Issue.lengthAnomaly v ∨ i = Issue.widthAnomaly v ∨ i = Issue.heightAnomaly v := by
  intro i hi
  unfold sizeIssuesOf at h
  match size, h with
  | [], h => simp only [Except.ok.injEq] at h; subst h; simp at hi
  | [a], h => simp only [Except.ok.injEq] at h; subst h; simp at hi
  | [a, b], h => simp only [Except.ok.injEq] at h; subst h; simp at hi
  | a :: b :: c :: d :: rest, h => simp only [Except.ok.injEq] at h; subst h; simp at hi
  | [a, b, c], h =>
    rcases hsel : selectSizeRule rules cls with e | ro
    · rw [hsel] at h; exact absurd h (by simp)
    · rcases ro with _ | rule
      · rw [hsel] at h
        simp only [Except.ok.injEq] at h
        subst h; simp at hi
      · rw [hsel] at h
        simp only [Except.ok.injEq] at h
        subst h
        rcases List.mem_append.mp hi with hm | hm
        · rcases List.mem_append.mp hm with hm | hm <;> (split at hm <;> simp_all)
        · split at hm <;> simp_all

theorem sizeIssues_no_attitude {rules : RulesSection} {cls : String} {size : List ℝ}
    {l : List Issue} (h : sizeIssuesOf rules cls size = .ok l) :
    ∀ v, Issue.rollAnomaly v ∉ l ∧ Issue.pitchAnomaly v ∉ l := by
  intro v
  constructor <;>
    · intro hm
      rcases sizeIssues_shape h _ hm with ⟨u, hu | hu | hu⟩ <;> simp_all

theorem sizeIssues_filter_quat {rules : RulesSection} {cls : String} {size : List ℝ}
    {l : List Issue} (h : sizeIssuesOf rules cls size = .ok l) :
    l.filter issueIsQuatNorm = [] := by
  rw [List.filter_eq_nil_iff]
  intro i hi
  rcases sizeIssues_shape h _ hi with ⟨u, hu | hu | hu⟩ <;> simp_all [issueIsQuatNorm]

theorem rotationIssues_pure_yaw (cls : String) (θ : ℝ) (v : ℝ) :
    Issue.rollAnomaly v ∉ rotationIssuesOf cls [Real.cos (θ / 2), 0, 0, Real.sin (θ / 2)] ∧
    Issue.pitchAnomaly v ∉ rotationIssuesOf cls [Real.cos (θ / 2), 0, 0, Real.sin (θ / 2)] := by
  obtain ⟨hr, hp⟩ := eulerAngles_pure_yaw θ
  unfold rotationIssuesOf
  constructor <;>
    · intro hm
      rcases List.mem_append.mp hm with h | h
      · split at h <;> simp_all
      · split at h
        · rcases List.mem_append.mp h with h2 | h2 <;>
            simp only [hr, hp] at h2 <;> norm_num at h2
        · simp_all

/-- C10: for every yaw angle `θ`, a vehicle-class object whose rotation is
the pure-yaw quaternion `(cos(θ/2), 0, 0, sin(θ/2))` decomposes via
`get_euler_angles` to roll = 0 and pitch = 0, so `check_object` never
emits a roll or pitch attitude issue for it. -/
theorem pure_yaw_never_attitude_issue (θ : ℝ) (rules : RulesSection) (obj : Obj)
    (_hveh : strContains (objClassOf obj) "vehicle" = true)
    (hrot : obj.rotation = [Real.cos (θ / 2), 0, 0, Real.sin (θ / 2)]) :
    (getEulerAngles (Real.cos (θ / 2)) 0 0 (Real.sin (θ / 2))).1 = 0 ∧
    (getEulerAngles (Real.cos (θ / 2)) 0 0 (Real.sin (θ / 2))).2.1 = 0 ∧
    ∀ issues, checkObject rules obj = .ok issues →
      ∀ v, Issue.rollAnomaly v ∉ issues ∧ Issue.pitchAnomaly v ∉ issues := by
  obtain ⟨hr, hp⟩ := eulerAngles_pure_yaw θ
  refine ⟨hr, hp, ?_⟩
  intro issues hok v
  unfold checkObject at hok
  rcases hm : rules.min_lidar_points with _ | minPts
  · rw [hm] at hok; exact absurd hok (by simp)
  · rw [hm] at hok
    rcases hs : sizeIssuesOf rules (objClassOf obj) obj.size with e | sizeIssues
    · rw [hs] at hok; exact absurd hok (by simp)
    · rw [hs] at hok
      simp only [Except.ok.injEq] at hok
      subst hok
      have hsz := sizeIssues_no_attitude hs v
      have hrot2 := rotationIssues_pure_yaw (objClassOf obj) θ v
      rw [← hrot] at hrot2
      constructor <;>
        · intro hmem
          rcases List.mem_append.mp hmem with h1 | h1
          · rcases List.mem_append.mp h1 with h2 | h2
            · split at h2 <;> simp_all
            · first
                | exact absurd h2 hsz.1
                | exact absurd h2 hsz.2
          · first
              | exact absurd h1 hrot2.1
              | exact absurd h1 hrot2.2

/-- A full rules section used to instantiate hypotheses concretely. -/
noncomputable def wRules10 : RulesSection := ⟨some 5, none, none, none, none⟩

/-- A vehicle object with the pure-yaw quaternion at `θ = 0`. -/
noncomputable def wObj10 : Obj := ⟨⟨0, 0, 0⟩, [1, 0, 0, 0], [], 10, "vehicle", none, none⟩

theorem pure_yaw_never_attitude_issue_witness :
    (getEulerAngles (Real.cos (0 / 2)) 0 0 (Real.sin (0 / 2))).1 = 0 ∧
    (getEulerAngles (Real.cos (0 / 2)) 0 0 (Real.sin (0 / 2))).2.1 = 0 := by
  have h := pure_yaw_never_attitude_issue 0 wRules10 wObj10 (by decide)
    (by show [(1 : ℝ), 0, 0, 0] = _; norm_num)
  exact ⟨h.1, h.2.1⟩

theorem rotationIssues_filter_quat (cls : String) (w x y z : ℝ) :
    (rotationIssuesOf cls [w, x, y, z]).filter issueIsQuatNorm =
      (if 0.01 < |Real.sqrt (w * w + x * x + y * y + z * z) - 1.0| then
        [Issue.quatNotNormalized (Real.sqrt (w * w + x * x + y * y + z * z))]
      else []) := by
  by_cases hq : 0.01 < |Real.sqrt (w * w + x * x + y * y + z * z) - 1.0| <;>
    by_cases hv : strContains cls "vehicle" = true <;>
    by_cases hr : 0.5 < |(getEulerAngles w x y z).1| <;>
    by_cases hp : 0.5 < |(getEulerAngles w x y z).2.1| <;>
    simp [rotationIssuesOf, hq, hv, hr, hp, issueIsQuatNorm, List.filter]

/-- C8: for every object with a 4-component rotation quaternion (and a
configuration whose required entries resolve), `check_object` raises no
normalization issue when the quaternion norm is within `0.01` of `1.0`, and
raises exactly one normalization issue reporting the measured norm when
`|norm - 1.0| > 0.01`. -/
theorem quat_norm_issue_iff (rules : RulesSection) (obj : Obj) (w x y z : ℝ) (m : ℤ)
    (szIssues : List Issue)
    (hrot : obj.rotation = [w, x, y, z])
    (hmp : rules.min_lidar_points = some m)
    (hsz : sizeIssuesOf rules (objClassOf obj) obj.size = .ok szIssues) :
    (checkObject rules obj).map (fun issues => issues.filter issueIsQuatNorm) =
      .ok (if 0.01 < |Real.sqrt (w * w + x * x + y * y + z * z) - 1.0| then
        [Issue.quatNotNormalized (Real.sqrt (w * w + x * x + y * y + z * z))]
      else []) := by
  unfold checkObject
  rw [hmp, hsz]
  simp only [Except.map]
  rw [List.filter_append, List.filter_append, sizeIssues_filter_quat hsz,
    hrot, rotationIssues_filter_quat]
  have hpts : (if obj.numLidarPts < m then [Issue.tooFewPoints obj.numLidarPts] else []).filter
      issueIsQuatNorm = [] := by
    split <;> simp [issueIsQuatNorm, List.filter]
  rw [hpts]
  simp

/-- Rules for the C8 witness. -/
noncomputable def wRules8 : RulesSection := ⟨some 5, none, none, none, none⟩

/-- Object for the C8 witness: quaternion `(2, 0, 0, 0)` of norm `2`. -/
noncomputable def wObj8 : Obj := ⟨⟨0, 0, 0⟩, [2, 0, 0, 0], [], 10, "car", none, none⟩

theorem quat_norm_issue_iff_witness :
    (checkObject wRules8 wObj8).map (fun issues => issues.filter issueIsQuatNorm) =
      .ok [Issue.quatNotNormalized (Real.sqrt ((2 : ℝ) * 2 + 0 * 0 + 0 * 0 + 0 * 0))] := by
  have hs : Real.sqrt ((2 : ℝ) * 2 + 0 * 0 + 0 * 0 + 0 * 0) = 2 := by
    rw [show ((2 : ℝ) * 2 + 0 * 0 + 0 * 0 + 0 * 0) = 2 ^ 2 by norm_num]
    exact Real.sqrt_sq (by norm_num)
  have h := quat_norm_issue_iff wRules8 wObj8 2 0 0 0 5 [] rfl rfl rfl
  rw [h, if_pos (by rw [hs]; norm_num)]

/-- A rules section with every entry except the minimum point count. -/
noncomputable def cRules7 : RulesSection :=
  ⟨none, some ⟨(1, 2), (1, 2), (1, 2)⟩, none, none, none⟩

/-- A configuration whose rules section is present but lacks
`min_lidar_points`. -/
noncomputable def cConfig7 : Config := ⟨some cRules7⟩

/-- A configuration with no rules section at all. -/
noncomputable def cConfigNoRules : Config := ⟨none⟩

/-- An arbitrary object for the C7 instances. -/
noncomputable def cObj7 : Obj := ⟨⟨0, 0, 0⟩, [], [], 0, "car", none, none⟩

/-- C7 counterexample: a configuration lacking the required minimum point
count is accepted at construction, and the failure is instead raised during
a per-object check — against the claim that such an absence surfaces when
the checker is constructed and is never raised per-object. -/
theorem missing_min_points_not_caught_at_startup :
    ruleCheckerInit cConfig7 = .ok cRules7 ∧
    checkObject cRules7 cObj7 = .error (.missingKey "min_lidar_points") :=
  ⟨rfl, rfl⟩

/-- C7 amended: only the absence of the whole `rules` section fails at
construction; a missing required entry inside it (such as the minimum point
count) is raised on the first per-object check instead of at startup. -/
theorem config_failure_semantics (c : Config) (obj : Obj) :
    (c.rules = none → ruleCheckerInit c = .error .missingRules) ∧
    (∀ r, c.rules = some r → ruleCheckerInit c = .ok r) ∧
    (∀ r, c.rules = some r → r.min_lidar_points = none →
      checkObject r obj = .error (.missingKey "min_lidar_points")) := by
  refine ⟨fun h => ?_, fun r h => ?_, fun r h hm => ?_⟩
  · unfold ruleCheckerInit; rw [h]
  · unfold ruleCheckerInit; rw [h]
  · unfold checkObject; rw [hm]

theorem config_failure_semantics_witness :
    ruleCheckerInit cConfigNoRules = .error .missingRules ∧
    checkObject cRules7 cObj7 = .error (.missingKey "min_lidar_points") :=
  ⟨(config_failure_semantics cConfigNoRules cObj7).1 rfl,
   (config_failure_semantics cConfig7 cObj7).2.2 cRules7 rfl rfl⟩

theorem charListLe_total : ∀ xs ys : List Char,
    charListLe xs ys = true ∨ charListLe ys xs = true
  | [], _ => Or.inl rfl
  | _ :: _, [] => Or.inr rfl
  | c :: cs, d :: ds => by
    by_cases h1 : c < d
    · left; simp [charListLe, h1]
    · by_cases h2 : d < c
      · right; simp [charListLe, h2]
      · rcases charListLe_total cs ds with h | h
        · left; simp [charListLe, h1, h2, h]
        · right; simp [charListLe, h1, h2, h]

theorem charListLe_trans : ∀ xs ys zs : List Char,
    charListLe xs ys = true → charListLe ys zs = true → charListLe xs zs = true
  | [], _, _, _, _ => rfl
  | _ :: _, [], _, h1, _ => by simp [charListLe] at h1
  | _ :: _, _ :: _, [], _, h2 => by simp [charListLe] at h2
  | c :: cs, d :: ds, e :: es, h1, h2 => by
    simp only [charListLe] at h1 h2 ⊢
    by_cases hcd : c < d
    · by_cases hde : d < e
      · simp [lt_trans hcd hde]
      · by_cases hed : e < d
        · simp [hde, hed] at h2
        · have hde2 : d = e := le_antisymm (not_lt.mp hed) (not_lt.mp hde)
          subst hde2
          simp [hcd]
    · by_cases hdc : d < c
      · simp [hcd, hdc] at h1
      · have hcd2 : c = d := le_antisymm (not_lt.mp hdc) (not_lt.mp hcd)
        subst hcd2
        rw [if_neg (lt_irrefl c), if_neg (lt_irrefl c)] at h1
        by_cases hce : c < e
        · rw [if_pos hce]
        · by_cases hec : e < c
          · rw [if_neg hce, if_pos hec] at h2
            exact absurd h2 (by simp)
          · rw [if_neg hce, if_neg hec] at h2 ⊢
            exact charListLe_trans cs ds es h1 h2

instance : IsTotal (String × Obj) trackLe :=
  ⟨fun p q => charListLe_total p.1.toList q.1.toList⟩

instance : IsTrans (String × Obj) trackLe :=
  ⟨fun _ _ _ h1 h2 => charListLe_trans _ _ _ h1 h2⟩

/-- Two objects of instance `A` at frames `10` and `2`. -/
noncomputable def cObj4a : Obj := ⟨⟨0, 0, 0⟩, [], [], 0, "car", none, some "A"⟩

/-- Second object for the C4 counterexample. -/
noncomputable def cObj4b : Obj := ⟨⟨1, 0, 0⟩, [], [], 0, "car", none, some "A"⟩

/-- Catalog with integer-like frame identifiers `10` and `2`. -/
noncomputable def cCatalog4 : List (String × List Obj) := [("10", [cObj4a]), ("2", [cObj4b])]

/-- C4 counterexample: with the all-integer-like frame identifiers `10`
and `2`, the built track keeps the raw string order (`10` before `2`),
not the numeric order (`2` before `10`) the claim requires. -/
theorem track_order_not_numeric :
    (buildTracks cCatalog4).map (fun t => (t.1, t.2.map Prod.fst)) = [("A", ["10", "2"])] ∧
    (["10", "2"] : List String) ≠ ["2", "10"] :=
  ⟨rfl, by decide⟩

/-- C4 amended: objects sharing an `instance_token` are grouped into one
track ordered ascending by the raw frame-identifier string (lexicographic
code-point comparison), with ties broken by original encounter order;
numeric comparison is never applied, even when all identifiers are
integer-like.  The example with frames `2`, `0`, `1` still yields a track
ordered `0`, `1`, `2`. -/
theorem tracks_sorted_by_raw_frame_id (allData : List (String × List Obj))
    (inst : String) (l : List (String × Obj))
    (hmem : (inst, l) ∈ buildTracks allData) :
    List.Sorted (fun a b : String => strLe a b = true) (l.map Prod.fst) := by
  unfold buildTracks at hmem
  rcases List.mem_map.mp hmem with ⟨t, _ht, heq⟩
  have hl : l = List.insertionSort trackLe t.2 := congrArg Prod.snd heq.symm
  subst hl
  have hs : List.Sorted trackLe (List.insertionSort trackLe t.2) :=
    List.sorted_insertionSort trackLe t.2
  exact List.Pairwise.map Prod.fst (fun {a b} h => h) hs

/-- Catalog for the C4 witness: frames `2`, `0`, `1` of one instance. -/
noncomputable def wObj4a : Obj := ⟨⟨0, 0, 0⟩, [], [], 0, "car", none, some "A"⟩

/-- Witness object at frame `0`. -/
noncomputable def wObj4b : Obj := ⟨⟨1, 0, 0⟩, [], [], 0, "car", none, some "A"⟩

/-- Witness object at frame `1`. -/
noncomputable def wObj4c : Obj := ⟨⟨2, 0, 0⟩, [], [], 0, "car", none, some "A"⟩

/-- Witness catalog, insertion order `2`, `0`, `1`. -/
noncomputable def wCatalog4 : List (String × List Obj) :=
  [("2", [wObj4a]), ("0", [wObj4b]), ("1", [wObj4c])]

theorem tracks_sorted_by_raw_frame_id_witness :
    buildTracks wCatalog4 = [("A", [("0", wObj4b), ("1", wObj4c), ("2", wObj4a)])] ∧
    List.Sorted (fun a b : String => strLe a b = true)
      (([("0", wObj4b), ("1", wObj4c), ("2", wObj4a)]).map Prod.fst) := by
  have h1 : buildTracks wCatalog4 = [("A", [("0", wObj4b), ("1", wObj4c), ("2", wObj4a)])] := rfl
  exact ⟨h1, tracks_sorted_by_raw_frame_id wCatalog4 "A" _ (by rw [h1]; simp)⟩

theorem prevTs_lt {idx : List Ins} {t pt : ℤ} (h : prevTs idx t = some pt) : pt < t := by
  unfold prevTs at h
  have hm := List.max?_mem (fun a b => max_choice a b) h
  simpa using (List.mem_filter.mp hm).2

theorem nextTs_gt {idx : List Ins} {t nt : ℤ} (h : nextTs idx t = some nt) : t < nt := by
  unfold nextTs at h
  have hm := List.min?_mem (fun a b => min_choice a b) h
  simpa using (List.mem_filter.mp hm).2

theorem prevTs_isEmpty_false {idx : List Ins} {t pt : ℤ} (h : prevTs idx t = some pt) :
    idx.isEmpty = false := by
  cases idx with
  | nil => simp [prevTs] at h
  | cons a l => rfl

theorem nextTs_isEmpty_false {idx : List Ins} {t nt : ℤ} (h : nextTs idx t = some nt) :
    idx.isEmpty = false := by
  cases idx with
  | nil => simp [nextTs] at h
  | cons a l => rfl

theorem findByTs_isEmpty_false {idx : List Ins} {t : ℤ} {e : Ins}
    (h : findByTs idx t = some e) : idx.isEmpty = false := by
  cases idx with
  | nil => simp [findByTs] at h
  | cons a l => rfl

/-- C5: `get_ins_interpolated` returns the stored entry on an exact
timestamp match; with both bracketing neighbors present it returns no
result when either neighbor is more than 100 ms away, and otherwise a pose
whose position axes are linearly interpolated by time ratio and whose
quaternion is component-wise interpolated and renormalized; with a single
neighbor it falls back to nearest-match behavior under the same 100 ms
tolerance. -/
theorem get_ins_interpolated_spec (idx : List Ins) (t : ℤ) :
    (∀ e, findByTs idx t = some e → getInsInterpolated idx t = some e) ∧
    (∀ pt, findByTs idx t = none → prevTs idx t = some pt → nextTs idx t = none →
      getInsInterpolated idx t = if 100000000 < |t - pt| then none else findByTs idx pt) ∧
    (∀ nt, findByTs idx t = none → prevTs idx t = none → nextTs idx t = some nt →
      getInsInterpolated idx t = if 100000000 < |nt - t| then none else findByTs idx nt) ∧
    (∀ pt nt, findByTs idx t = none → prevTs idx t = some pt → nextTs idx t = some nt →
      (100000000 < |t - pt| ∨ 100000000 < |nt - t|) → getInsInterpolated idx t = none) ∧
    (∀ pt nt pe ne, findByTs idx t = none → prevTs idx t = some pt → nextTs idx t = some nt →
      findByTs idx pt = some pe → findByTs idx nt = some ne →
      ¬ 100000000 < |t - pt| → ¬ 100000000 < |nt - t| →
      ∀ ratio nrm, ratio = ((t - pt : ℤ) : ℝ) / ((nt - pt : ℤ) : ℝ) →
        nrm = Real.sqrt ((pe.qw + ratio * (ne.qw - pe.qw)) * (pe.qw + ratio * (ne.qw - pe.qw)) +
          (pe.qx + ratio * (ne.qx - pe.qx)) * (pe.qx + ratio * (ne.qx - pe.qx)) +
          (pe.qy + ratio * (ne.qy - pe.qy)) * (pe.qy + ratio * (ne.qy - pe.qy)) +
          (pe.qz + ratio * (ne.qz - pe.qz)) * (pe.qz + ratio * (ne.qz - pe.qz))) →
        0 < nrm →
        getInsInterpolated idx t = some
          ⟨pe.utm_x + ratio * (ne.utm_x - pe.utm_x),
           pe.utm_y + ratio * (ne.utm_y - pe.utm_y),
           pe.utm_z + ratio * (ne.utm_z - pe.utm_z),
           (pe.qw + ratio * (ne.qw - pe.qw)) / nrm,
           (pe.qx + ratio * (ne.qx - pe.qx)) / nrm,
           (pe.qy + ratio * (ne.qy - pe.qy)) / nrm,
           (pe.qz + ratio * (ne.qz - pe.qz)) / nrm,
           t⟩) := by
  refine ⟨?_, ?_, ?_, ?_, ?_⟩
  · intro e he
    unfold getInsInterpolated
    rw [findByTs_isEmpty_false he, he]
    simp
  · intro pt hf hp hn
    unfold getInsInterpolated
    rw [prevTs_isEmpty_false hp, hf, hp, hn]
    simp
  · intro nt hf hp hn
    unfold getInsInterpolated
    rw [nextTs_isEmpty_false hn, hf, hp, hn]
    simp
  · intro pt nt hf hp hn hfar
    unfold getInsInterpolated
    rw [prevTs_isEmpty_false hp, hf, hp, hn]
    simp only [Bool.false_eq_true, if_false]
    rw [if_pos hfar]
  · intro pt nt pe ne hf hp hn hpe hne hgp hgn ratio nrm hr hnrm hpos
    have htot : (0 : ℤ) < nt - pt := by
      have h1 := prevTs_lt hp
      have h2 := nextTs_gt hn
      omega
    subst hr
    subst hnrm
    unfold getInsInterpolated
    rw [prevTs_isEmpty_false hp, hf, hp, hn]
    simp only [Bool.false_eq_true, if_false]
    rw [if_neg (not_or.mpr ⟨hgp, hgn⟩), hpe, hne]
    simp only [if_pos htot, if_pos hpos]

/-- Pose at `t = 0` with position `[0, 0, 0]`. -/
noncomputable def wIns5a : Ins := ⟨0, 0, 0, 1, 0, 0, 0, 0⟩

/-- Pose at `t = 100` ms with position `[1, 0, 0]`. -/
noncomputable def wIns5b : Ins := ⟨1, 0, 0, 1, 0, 0, 0, 100000000⟩

/-- The two-pose log of the C5 example. -/
noncomputable def wIdx5 : List Ins := [wIns5a, wIns5b]

theorem get_ins_interpolated_spec_witness :
    getInsInterpolated wIdx5 50000000 = some ⟨0.5, 0, 0, 1, 0, 0, 0, 50000000⟩ ∧
    getInsInterpolated wIdx5 300000000 = none := by
  constructor
  · have h5 := (get_ins_interpolated_spec wIdx5 50000000).2.2.2.2 0 100000000 wIns5a wIns5b
      rfl rfl rfl rfl rfl (by decide) (by decide)
      (((50000000 - 0 : ℤ) : ℝ) / ((100000000 - 0 : ℤ) : ℝ))
      (Real.sqrt ((wIns5a.qw + ((50000000 - 0 : ℤ) : ℝ) / ((100000000 - 0 : ℤ) : ℝ) * (wIns5b.qw - wIns5a.qw)) *
          (wIns5a.qw + ((50000000 - 0 : ℤ) : ℝ) / ((100000000 - 0 : ℤ) : ℝ) * (wIns5b.qw - wIns5a.qw)) +
        (wIns5a.qx + ((50000000 - 0 : ℤ) : ℝ) / ((100000000 - 0 : ℤ) : ℝ) * (wIns5b.qx - wIns5a.qx)) *
          (wIns5a.qx + ((50000000 - 0 : ℤ) : ℝ) / ((100000000 - 0 : ℤ) : ℝ) * (wIns5b.qx - wIns5a.qx)) +
        (wIns5a.qy + ((50000000 - 0 : ℤ) : ℝ) / ((100000000 - 0 : ℤ) : ℝ) * (wIns5b.qy - wIns5a.qy)) *
          (wIns5a.qy + ((50000000 - 0 : ℤ) : ℝ) / ((100000000 - 0 : ℤ) : ℝ) * (wIns5b.qy - wIns5a.qy)) +
        (wIns5a.qz + ((50000000 - 0 : ℤ) : ℝ) / ((100000000 - 0 : ℤ) : ℝ) * (wIns5b.qz - wIns5a.qz)) *
          (wIns5a.qz + ((50000000 - 0 : ℤ) : ℝ) / ((100000000 - 0 : ℤ) : ℝ) * (wIns5b.qz - wIns5a.qz))))
      rfl rfl (by norm_num [wIns5a, wIns5b, Real.sqrt_one])
    rw [h5]
    norm_num [wIns5a, wIns5b, Real.sqrt_one]
  · have h2 := (get_ins_interpolated_spec wIdx5 300000000).2.1 100000000 rfl rfl rfl
    rw [h2, if_pos (by decide)]

@[simp] theorem Vec3.sub_def (a b : Vec3) : a - b = ⟨a.x - b.x, a.y - b.y, a.z - b.z⟩ := rfl

@[simp] theorem Vec3.add_def (a b : Vec3) : a + b = ⟨a.x + b.x, a.y + b.y, a.z + b.z⟩ := rfl

/-- The all-absent pose mapping (`frame_to_ins` is `None`). -/
def noPoses : ℤ → Option Ins := fun _ => none

/-- Track sample at ego position `(0, 0, 0)`. -/
noncomputable def cObj1a : Obj := ⟨⟨0, 0, 0⟩, [], [], 0, "car", none, none⟩

/-- Track sample at ego position `(1, 0, 0)`. -/
noncomputable def cObj1b : Obj := ⟨⟨1, 0, 0⟩, [], [], 0, "car", none, none⟩

/-- Track sample at ego position `(5, 0, 0)`. -/
noncomputable def cObj1c : Obj := ⟨⟨5, 0, 0⟩, [], [], 0, "car", none, none⟩

/-- A three-sample track anchored at its start. -/
noncomputable def cTrack1 : List (ℤ × Obj) := [(0, cObj1a), (1, cObj1b), (2, cObj1c)]

/-- C1 counterexample: at the start anchor of a three-sample track the code
takes `positions[-1]`, the *farthest* appended forward sample (offset `+2`),
so the motion vector is `(5,0,0) - (0,0,0)`, not the displacement
`(1,0,0) - (0,0,0)` to the nearest usable forward sample that the claim
describes. -/
theorem motion_vector_uses_farthest_forward :
    estimateMotionVector cTrack1 0 noPoses = some ⟨5, 0, 0⟩ ∧
    specNearestMotionVector cTrack1 0 noPoses = some ⟨1, 0, 0⟩ ∧
    ((⟨5, 0, 0⟩ : Vec3) = ⟨1, 0, 0⟩ → False) := by
  refine ⟨?_, ?_, ?_⟩
  · norm_num [estimateMotionVector, sampleList, worldPos, noPoses, cTrack1,
      cObj1a, cObj1b, cObj1c, List.getLastD]
  · norm_num [specNearestMotionVector, wpAt, worldPos, noPoses, cTrack1,
      cObj1a, cObj1b, cObj1c]
  · intro h
    have := congrArg Vec3.x h
    norm_num at this

/-- C1 amended: for an anchor inside the track the motion vector is the
displacement from the nearest *preceding* sample to the *farthest* usable
following sample within two offsets (`positions[-1]`), not the nearest one;
one-sided at the track ends (at the end, anchor minus nearest preceding; at
the start, farthest following within two offsets minus anchor); anchors
with no neighboring sample give no vector.  The `0.5^|offset|`-weighted
average position is computed but does not enter the result. -/
theorem estimate_motion_vector_characterization (track : List (ℤ × Obj))
    (poses : ℤ → Option Ins) (frameIdx : ℕ) (hlt : frameIdx < track.length) :
    estimateMotionVector track frameIdx poses =
      if 0 < frameIdx ∧ frameIdx + 1 < track.length then
        some ((if frameIdx + 2 < track.length then wpAt track poses (frameIdx + 2)
               else wpAt track poses (frameIdx + 1)) - wpAt track poses (frameIdx - 1))
      else if 0 < frameIdx then
        some (wpAt track poses frameIdx - wpAt track poses (frameIdx - 1))
      else if frameIdx + 1 < track.length then
        some ((if frameIdx + 2 < track.length then wpAt track poses (frameIdx + 2)
               else wpAt track poses (frameIdx + 1)) - wpAt track poses frameIdx)
      else none := by
  obtain ⟨⟨cfid, cobj⟩, hs⟩ : ∃ s, track[frameIdx]? = some s :=
    ⟨track[frameIdx], List.getElem?_eq_getElem hlt⟩
  have hcurr : wpAt track poses frameIdx = worldPos poses cfid cobj := by
    unfold wpAt; rw [hs]
  unfold estimateMotionVector
  rw [hs]
  by_cases h0 : 0 < frameIdx
  · have hb1 : frameIdx - 1 < track.length := by omega
    obtain ⟨⟨f1, o1⟩, hs1⟩ : ∃ s, track[frameIdx - 1]? = some s :=
      ⟨track[frameIdx - 1], List.getElem?_eq_getElem hb1⟩
    have hw1 : wpAt track poses (frameIdx - 1) = worldPos poses f1 o1 := by
      unfold wpAt; rw [hs1]
    by_cases h1 : frameIdx + 1 < track.length
    · -- interior anchor
      obtain ⟨⟨f2, o2⟩, hs2⟩ : ∃ s, track[frameIdx + 1]? = some s :=
        ⟨track[frameIdx + 1], List.getElem?_eq_getElem h1⟩
      have hw2 : wpAt track poses (frameIdx + 1) = worldPos poses f2 o2 := by
        unfold wpAt; rw [hs2]
      have hle1 : 1 ≤ frameIdx := by omega
      by_cases hf2 : frameIdx + 2 < track.length
      · obtain ⟨⟨f3, o3⟩, hs3⟩ : ∃ s, track[frameIdx + 2]? = some s :=
          ⟨track[frameIdx + 2], List.getElem?_eq_getElem hf2⟩
        have hw3 : wpAt track poses (frameIdx + 2) = worldPos poses f3 o3 := by
          unfold wpAt; rw [hs3]
        by_cases hb2 : 2 ≤ frameIdx
        · obtain ⟨⟨f4, o4⟩, hs4⟩ : ∃ s, track[frameIdx - 2]? = some s :=
            ⟨track[frameIdx - 2], List.getElem?_eq_getElem (by omega)⟩
          simp only [sampleList, hs1, hs2, hs3, hs4,
            List.map_cons, List.map_append, List.cons_append, List.nil_append,
            List.append_assoc]
          norm_num [List.getLastD, List.getD, hw1, hw2, hw3, h0, h1, hb2, hf2, hle1]
        · simp only [sampleList, hs1, hs2, hs3,
            List.map_cons, List.map_append, List.cons_append, List.nil_append,
            List.append_assoc]
          norm_num [List.getLastD, List.getD, hw1, hw2, hw3, h0, h1, hb2, hf2, hle1]
      · have hs3 : track[frameIdx + 2]? = none := by
          rw [List.getElem?_eq_none]; omega
        by_cases hb2 : 2 ≤ frameIdx
        · obtain ⟨⟨f4, o4⟩, hs4⟩ : ∃ s, track[frameIdx - 2]? = some s :=
            ⟨track[frameIdx - 2], List.getElem?_eq_getElem (by omega)⟩
          simp only [sampleList, hs1, hs2, hs3, hs4,
            List.map_cons, List.map_append, List.cons_append, List.nil_append,
            List.append_assoc]
          norm_num [List.getLastD, List.getD, hw1, hw2, h0, h1, hb2, hf2, hle1]
        · simp only [sampleList, hs1, hs2, hs3,
            List.map_cons, List.map_append, List.cons_append, List.nil_append,
            List.append_assoc]
          norm_num [List.getLastD, List.getD, hw1, hw2, h0, h1, hb2, hf2, hle1]
    · -- anchor at the track end
      have hle1 : 1 ≤ frameIdx := by omega
      have hs2 : track[frameIdx + 1]? = none := by rw [List.getElem?_eq_none]; omega
      have hs3 : track[frameIdx + 2]? = none := by rw [List.getElem?_eq_none]; omega
      by_cases hb2 : 2 ≤ frameIdx
      · obtain ⟨⟨f4, o4⟩, hs4⟩ : ∃ s, track[frameIdx - 2]? = some s :=
          ⟨track[frameIdx - 2], List.getElem?_eq_getElem (by omega)⟩
        simp only [sampleList, hs1, hs2, hs3, hs4,
          List.map_cons, List.map_append, List.cons_append, List.nil_append,
          List.append_assoc]
        norm_num [List.getLastD, List.getD, hcurr, hw1, h0, h1, hb2, hle1]
      · simp only [sampleList, hs1, hs2, hs3,
          List.map_cons, List.map_append, List.cons_append, List.nil_append,
          List.append_assoc]
        norm_num [List.getLastD, List.getD, hcurr, hw1, h0, h1, hb2, hle1]
  · -- anchor at the track start
    have hz : frameIdx = 0 := by omega
    subst hz
    by_cases h1 : 0 + 1 < track.length
    · obtain ⟨⟨f2, o2⟩, hs2⟩ : ∃ s, track[0 + 1]? = some s :=
        ⟨track[0 + 1], List.getElem?_eq_getElem h1⟩
      have hw2 : wpAt track poses (0 + 1) = worldPos poses f2 o2 := by
        unfold wpAt; rw [hs2]
      by_cases hf2 : 0 + 2 < track.length
      · obtain ⟨⟨f3, o3⟩, hs3⟩ : ∃ s, track[0 + 2]? = some s :=
          ⟨track[0 + 2], List.getElem?_eq_getElem hf2⟩
        have hw3 : wpAt track poses (0 + 2) = worldPos poses f3 o3 := by
          unfold wpAt; rw [hs3]
        simp only [sampleList, hs2, hs3,
          List.map_cons, List.map_append, List.cons_append, List.nil_append,
          List.append_assoc]
        norm_num [List.getLastD, List.getD, hcurr, hw2, hw3, h1, hf2]
      · have hs3 : track[0 + 2]? = none := by rw [List.getElem?_eq_none]; omega
        simp only [sampleList, hs2, hs3,
          List.map_cons, List.map_append, List.cons_append, List.nil_append,
          List.append_assoc]
        norm_num [List.getLastD, List.getD, hcurr, hw2, h1, hf2]
    · have hs2 : track[0 + 1]? = none := by rw [List.getElem?_eq_none]; omega
      have hs3 : track[0 + 2]? = none := by rw [List.getElem?_eq_none]; omega
      simp only [sampleList, hs2, hs3,
        List.map_cons, List.map_append, List.cons_append, List.nil_append,
        List.append_assoc]
      norm_num [h1]

theorem estimate_motion_vector_characterization_witness :
    estimateMotionVector cTrack1 1 noPoses =
      some (wpAt cTrack1 noPoses 2 - wpAt cTrack1 noPoses 0) := by
  have h := estimate_motion_vector_characterization cTrack1 noPoses 1 (by norm_num [cTrack1])
  rw [h]
  norm_num [cTrack1]

/-- A displacement surviving the regime-dependent minimum forces the
normal-speed regime: the static minimum `0.05` m and low-speed minimum
`0.10` m both already imply a speed `dist / 0.1 ≥ 0.5` m/s. -/
theorem alignment_state_normal {dist : ℝ}
    (hd : ¬ dist < minMotionThreshold (classifyMotionState (dist / 0.1))) :
    classifyMotionState (dist / 0.1) = .normal_speed := by
  rcases h : classifyMotionState (dist / 0.1) with _ | _ | _
  · rw [h] at hd
    have hlt := (classify_eq_static_iff _).mp h
    have : dist < 0.01 := by
      have := (div_lt_iff₀ (by norm_num : (0 : ℝ) < 0.1)).mp hlt
      linarith
    exact absurd this (by simp only [minMotionThreshold] at hd; intro hc; exact hd (by linarith))
  · rw [h] at hd
    have hlt := ((classify_eq_low_iff _).mp h).2
    have : dist < 0.05 := by
      have := (div_lt_iff₀ (by norm_num : (0 : ℝ) < 0.1)).mp hlt
      linarith
    exact absurd this (by simp only [minMotionThreshold] at hd; intro hc; exact hd (by linarith))
  · rfl

/-- The heading-check outcome in the specification's words, for comparison
with `checkMotionAlignment`: a difference within tolerance of `0` is
consistent; within tolerance of `π` is reverse motion, reported exactly
when the regime is not static; anything else is one heading-inconsistency
issue carrying the angular delta and estimated speed. -/
noncomputable def specHeadingOutcome (state : MotionState) (diff speed : ℝ) : List Issue :=
  if diff < angleTolerance * toleranceScale state then []
  else if |diff - π| < angleTolerance * toleranceScale state then
    (if state = .static then [] else [Issue.reversing speed])
  else [Issue.headingInconsistent state diff speed]

/-- C2: once the displacement passes the regime minimum, the normalized
absolute angular difference lies in `[0, π]`, the tolerance is `0.5236`
scaled `×1.5 / ×1.0 / ×0.8` by regime, and the emitted issues follow the
specification's case split on the difference, with reverse motion reported
exactly when the regime is not static. -/
theorem heading_tolerance_semantics (obj : Obj) (track : List (ℤ × Obj))
    (frameIdx : ℕ) (poses : ℤ → Option Ins) (mv : Vec3) (w x y z : ℝ)
    (hveh : isVehicleClass (objClassOf obj) = true)
    (hmv : estimateMotionVector track frameIdx poses = some mv)
    (hrot : obj.rotation = [w, x, y, z])
    (hdist : ¬ planarNorm mv < minMotionThreshold (classifyMotionState (planarNorm mv / 0.1))) :
    0 ≤ normalizeAngle (atan2 mv.y mv.x - annotYawWorld poses frameIdx w x y z) ∧
    normalizeAngle (atan2 mv.y mv.x - annotYawWorld poses frameIdx w x y z) ≤ π ∧
    toleranceScale .static = 1.5 ∧ toleranceScale .low_speed = 1 ∧
    toleranceScale .normal_speed = 0.8 ∧
    checkMotionAlignment obj track frameIdx poses =
      specHeadingOutcome (classifyMotionState (planarNorm mv / 0.1))
        (normalizeAngle (atan2 mv.y mv.x - annotYawWorld poses frameIdx w x y z))
        (planarNorm mv / 0.1) := by
  refine ⟨normalizeAngle_nonneg _, normalizeAngle_le_pi _, rfl, rfl, rfl, ?_⟩
  have hst : classifyMotionState (planarNorm mv / 0.1) = .normal_speed :=
    alignment_state_normal hdist
  have hsp : staticThreshold < planarNorm mv / 0.1 := by
    have h5 := (classify_eq_normal_iff _).mp hst
    unfold staticThreshold
    linarith
  set D := normalizeAngle (atan2 mv.y mv.x - annotYawWorld poses frameIdx w x y z) with hD
  have hDle : D ≤ π := normalizeAngle_le_pi _
  simp only [checkMotionAlignment, hveh, hmv, hrot, Bool.not_eq_true, not_false_iff,
    Bool.true_eq_false, if_false, ite_false]
  rw [if_neg hdist]
  simp only [specHeadingOutcome, hst, ← hD]
  have htol : angleTolerance * toleranceScale MotionState.normal_speed ≤ 0.42 := by
    norm_num [angleTolerance, toleranceScale]
  have hpi : (3 : ℝ) < π := Real.pi_gt_three
  have hkey : ¬ (D < angleTolerance * toleranceScale MotionState.normal_speed ∧
      |D - π| < angleTolerance * toleranceScale MotionState.normal_speed) := by
    rintro ⟨hfw, hbw⟩
    rw [abs_sub_comm, abs_of_nonneg (by linarith)] at hbw
    linarith
  simp only [not_true, if_false]
  by_cases hf : D < angleTolerance * toleranceScale MotionState.normal_speed
  · have h1 : ¬ (¬ D < angleTolerance * toleranceScale MotionState.normal_speed ∧
        ¬ |D - π| < angleTolerance * toleranceScale MotionState.normal_speed) :=
      fun hc => hc.1 hf
    have h2 : ¬ (|D - π| < angleTolerance * toleranceScale MotionState.normal_speed ∧
        staticThreshold < planarNorm mv / 0.1) := fun hc => hkey ⟨hf, hc.1⟩
    rw [if_pos hf, if_neg h1, if_neg h2]
  · by_cases hb : |D - π| < angleTolerance * toleranceScale MotionState.normal_speed
    · have h1 : ¬ (¬ D < angleTolerance * toleranceScale MotionState.normal_speed ∧
          ¬ |D - π| < angleTolerance * toleranceScale MotionState.normal_speed) :=
        fun hc => hc.2 hb
      have h2 : |D - π| < angleTolerance * toleranceScale MotionState.normal_speed ∧
          staticThreshold < planarNorm mv / 0.1 := ⟨hb, hsp⟩
      have h3 : ¬ (MotionState.normal_speed = MotionState.static) := by simp
      rw [if_neg hf, if_pos hb, if_neg h1, if_pos h2, if_neg h3]
    · have h1 : ¬ D < angleTolerance * toleranceScale MotionState.normal_speed ∧
          ¬ |D - π| < angleTolerance * toleranceScale MotionState.normal_speed := ⟨hf, hb⟩
      rw [if_neg hf, if_neg hb, if_pos h1]

/-- Witness vehicle object for C2: identity quaternion, anchor of a track
moving along `+X`. -/
noncomputable def wObj2 : Obj := ⟨⟨1, 0, 0⟩, [1, 0, 0, 0], [], 10, "vehicle", none, none⟩

/-- Preceding track sample for the C2 witness. -/
noncomputable def wObj2a : Obj := ⟨⟨0, 0, 0⟩, [], [], 0, "vehicle", none, none⟩

/-- Following track sample for the C2 witness. -/
noncomputable def wObj2c : Obj := ⟨⟨2, 0, 0⟩, [], [], 0, "vehicle", none, none⟩

/-- C2 witness track moving along `+X` at 10 Hz. -/
noncomputable def wTrack2 : List (ℤ × Obj) := [(0, wObj2a), (1, wObj2), (2, wObj2c)]

theorem heading_tolerance_semantics_witness :
    checkMotionAlignment wObj2 wTrack2 1 noPoses = [] := by
  have hmvW : estimateMotionVector wTrack2 1 noPoses = some ⟨2, 0, 0⟩ := by
    norm_num [estimateMotionVector, sampleList, worldPos, noPoses, wTrack2, wObj2,
      wObj2a, wObj2c, List.getLastD, List.getD]
  have hplanar : planarNorm ⟨2, 0, 0⟩ = 2 := by
    unfold planarNorm
    rw [show ((2 : ℝ) ^ 2 + 0 ^ 2) = 2 ^ 2 by norm_num]
    exact Real.sqrt_sq (by norm_num)
  have hclass : classifyMotionState (planarNorm ⟨2, 0, 0⟩ / 0.1) = .normal_speed := by
    rw [hplanar]
    exact (classify_eq_normal_iff _).mpr (by norm_num)
  have hdistW : ¬ planarNorm (⟨2, 0, 0⟩ : Vec3) <
      minMotionThreshold (classifyMotionState (planarNorm (⟨2, 0, 0⟩ : Vec3) / 0.1)) := by
    rw [hclass, hplanar]
    norm_num [minMotionThreshold]
  have hyaw : annotYawWorld noPoses 1 1 0 0 0 = 0 := by
    show atan2 (2 * (1 * 0 + 0 * 0)) (1 - 2 * (0 * 0 + 0 * 0)) = 0
    rw [show (2 : ℝ) * (1 * 0 + 0 * 0) = 0 by norm_num,
      show (1 : ℝ) - 2 * (0 * 0 + 0 * 0) = 1 by norm_num]
    exact atan2_zero_of_nonneg zero_le_one
  have hD : normalizeAngle (atan2 (⟨2, 0, 0⟩ : Vec3).y (⟨2, 0, 0⟩ : Vec3).x -
      annotYawWorld noPoses 1 1 0 0 0) = 0 := by
    rw [show ((⟨2, 0, 0⟩ : Vec3).y : ℝ) = 0 from rfl, show ((⟨2, 0, 0⟩ : Vec3).x : ℝ) = 2 from rfl,
      hyaw, atan2_zero_of_nonneg (by norm_num : (0 : ℝ) ≤ 2), sub_zero]
    exact normalizeAngle_zero
  have h := heading_tolerance_semantics wObj2 wTrack2 1 noPoses ⟨2, 0, 0⟩ 1 0 0 0
    (by decide) hmvW rfl hdistW
  rw [h.2.2.2.2.2, hclass, hD]
  norm_num [specHeadingOutcome, angleTolerance, toleranceScale]

theorem cma_not_vehicle {obj : Obj} (track : List (ℤ × Obj)) (frameIdx : ℕ)
    (poses : ℤ → Option Ins) (h : ¬ isVehicleClass (objClassOf obj) = true) :
    checkMotionAlignment obj track frameIdx poses = [] := by
  unfold checkMotionAlignment
  rw [if_pos h]

theorem cma_no_mv {obj : Obj} {track : List (ℤ × Obj)} {frameIdx : ℕ}
    {poses : ℤ → Option Ins} (hmv : estimateMotionVector track frameIdx poses = none) :
    checkMotionAlignment obj track frameIdx poses = [] := by
  unfold checkMotionAlignment
  split
  · rfl
  · rw [hmv]

theorem cma_below_threshold {obj : Obj} {track : List (ℤ × Obj)} {frameIdx : ℕ}
    {poses : ℤ → Option Ins} {mv : Vec3}
    (hmv : estimateMotionVector track frameIdx poses = some mv)
    (hd : planarNorm mv < minMotionThreshold (classifyMotionState (planarNorm mv / 0.1))) :
    checkMotionAlignment obj track frameIdx poses = [] := by
  unfold checkMotionAlignment
  split
  · rfl
  · simp only [hmv]
    rw [if_pos hd]

theorem cma_heading_state {obj : Obj} {track : List (ℤ × Obj)} {frameIdx : ℕ}
    {poses : ℤ → Option Ins} {st : MotionState} {d s : ℝ}
    (hm : Issue.headingInconsistent st d s ∈ checkMotionAlignment obj track frameIdx poses) :
    ∃ mv, estimateMotionVector track frameIdx poses = some mv ∧
      ¬ planarNorm mv < minMotionThreshold (classifyMotionState (planarNorm mv / 0.1)) ∧
      st = classifyMotionState (planarNorm mv / 0.1) ∧ s = planarNorm mv / 0.1 := by
  cases hmv : estimateMotionVector track frameIdx poses with
  | none => rw [cma_no_mv hmv] at hm; simp at hm
  | some mv =>
    by_cases hd : planarNorm mv < minMotionThreshold (classifyMotionState (planarNorm mv / 0.1))
    · rw [cma_below_threshold hmv hd] at hm
      simp at hm
    · refine ⟨mv, rfl, hd, ?_⟩
      by_cases hveh : ¬ isVehicleClass (objClassOf obj) = true
      · rw [cma_not_vehicle track frameIdx poses hveh] at hm
        simp at hm
      · unfold checkMotionAlignment at hm
        rw [if_neg hveh] at hm
        simp only [hmv] at hm
        rw [if_neg hd] at hm
        split at hm
        · split at hm
          · simp at hm
            exact ⟨hm.1, hm.2.2⟩
          · split at hm <;> simp at hm
        · simp at hm

theorem cma_reversing_speed {obj : Obj} {track : List (ℤ × Obj)} {frameIdx : ℕ}
    {poses : ℤ → Option Ins} {s : ℝ}
    (hm : Issue.reversing s ∈ checkMotionAlignment obj track frameIdx poses) :
    ∃ mv, estimateMotionVector track frameIdx poses = some mv ∧
      ¬ planarNorm mv < minMotionThreshold (classifyMotionState (planarNorm mv / 0.1)) ∧
      s = planarNorm mv / 0.1 := by
  cases hmv : estimateMotionVector track frameIdx poses with
  | none => rw [cma_no_mv hmv] at hm; simp at hm
  | some mv =>
    by_cases hd : planarNorm mv < minMotionThreshold (classifyMotionState (planarNorm mv / 0.1))
    · rw [cma_below_threshold hmv hd] at hm
      simp at hm
    · refine ⟨mv, rfl, hd, ?_⟩
      by_cases hveh : ¬ isVehicleClass (objClassOf obj) = true
      · rw [cma_not_vehicle track frameIdx poses hveh] at hm
        simp at hm
      · unfold checkMotionAlignment at hm
        rw [if_neg hveh] at hm
        simp only [hmv] at hm
        rw [if_neg hd] at hm
        split at hm
        · split at hm
          · simp at hm
          · split at hm <;> simp at hm
            exact hm
        · simp at hm

/-- C3: the estimated speed is the planar displacement over a fixed 0.1 s,
so any displacement passing the static (0.05 m) or low-speed (0.10 m)
minimum already classifies as normal speed; every heading-inconsistency
report carries the normal-speed regime, every reverse-motion report's
speed classifies as normal speed, and in the static or low-speed regime
the check always returns no issues. -/
theorem alignment_issues_only_normal_speed (obj : Obj) (track : List (ℤ × Obj))
    (frameIdx : ℕ) (poses : ℤ → Option Ins) :
    (∀ mv, estimateMotionVector track frameIdx poses = some mv →
      classifyMotionState (planarNorm mv / 0.1) ≠ .normal_speed →
      checkMotionAlignment obj track frameIdx poses = []) ∧
    (∀ st d s, Issue.headingInconsistent st d s ∈ checkMotionAlignment obj track frameIdx poses →
      st = .normal_speed) ∧
    (∀ s, Issue.reversing s ∈ checkMotionAlignment obj track frameIdx poses →
      classifyMotionState s = .normal_speed) ∧
    (∀ mv : Vec3, ¬ planarNorm mv < minMotionThreshold (classifyMotionState (planarNorm mv / 0.1)) →
      classifyMotionState (planarNorm mv / 0.1) = .normal_speed) := by
  refine ⟨?_, ?_, ?_, ?_⟩
  · intro mv hmv hns
    by_cases hd : planarNorm mv < minMotionThreshold (classifyMotionState (planarNorm mv / 0.1))
    · exact cma_below_threshold hmv hd
    · exact absurd (alignment_state_normal hd) hns
  · intro st d s hm
    obtain ⟨mv, _, hd, hst, _⟩ := cma_heading_state hm
    rw [hst]
    exact alignment_state_normal hd
  · intro s hm
    obtain ⟨mv, _, hd, hs⟩ := cma_reversing_speed hm
    rw [hs]
    exact alignment_state_normal hd
  · intro mv hd
    exact alignment_state_normal hd

/-- C3 witness object: vehicle at the anchor of a barely-moving track. -/
noncomputable def wObj3 : Obj := ⟨⟨0.01, 0, 0⟩, [1, 0, 0, 0], [], 10, "vehicle", none, none⟩

/-- Preceding sample for the C3 witness. -/
noncomputable def wObj3a : Obj := ⟨⟨0, 0, 0⟩, [], [], 0, "vehicle", none, none⟩

/-- Following sample for the C3 witness. -/
noncomputable def wObj3c : Obj := ⟨⟨0.02, 0, 0⟩, [], [], 0, "vehicle", none, none⟩

/-- C3 witness track with 2 cm steps (low-speed regime). -/
noncomputable def wTrack3 : List (ℤ × Obj) := [(0, wObj3a), (1, wObj3), (2, wObj3c)]

theorem alignment_issues_only_normal_speed_witness :
    checkMotionAlignment wObj3 wTrack3 1 noPoses = [] := by
  have hmvW : estimateMotionVector wTrack3 1 noPoses = some ⟨0.02, 0, 0⟩ := by
    norm_num [estimateMotionVector, sampleList, worldPos, noPoses, wTrack3, wObj3,
      wObj3a, wObj3c, List.getLastD, List.getD]
  have hplanar : planarNorm ⟨0.02, 0, 0⟩ = 0.02 := by
    unfold planarNorm
    rw [show ((0.02 : ℝ) ^ 2 + 0 ^ 2) = 0.02 ^ 2 by norm_num]
    exact Real.sqrt_sq (by norm_num)
  have hclass : classifyMotionState (planarNorm ⟨0.02, 0, 0⟩ / 0.1) = .low_speed := by
    rw [hplanar]
    exact (classify_eq_low_iff _).mpr ⟨by norm_num, by norm_num⟩
  exact (alignment_issues_only_normal_speed wObj3 wTrack3 1 noPoses).1 ⟨0.02, 0, 0⟩ hmvW
    (by rw [hclass]; simp)

theorem velList_replicate (positions : List Vec3) (c : ℤ) :
    velList positions (List.replicate positions.length c) = [] := by
  unfold velList
  rw [List.filterMap_eq_nil_iff]
  intro i hi
  obtain ⟨k, hk, rfl⟩ := List.mem_range'.mp hi
  have ha : k < positions.length := by omega
  have hb : 1 + k < positions.length := by omega
  simp [List.getD, List.getElem?_replicate, ha, hb, sub_self]

theorem accIssues_nil (timestamps : List ℤ) : accIssues timestamps [] = [] := by
  unfold accIssues
  norm_num

theorem transitionIssues_nil : transitionIssues [] = [] := by
  unfold transitionIssues countTransitions
  norm_num

theorem continuityIssues_replicate (positions : List Vec3) (c : ℤ) (velocities : List ℝ) :
    continuityIssues positions (List.replicate positions.length c) velocities = [] := by
  unfold continuityIssues
  rw [List.flatMap_eq_nil_iff]
  intro i hi
  obtain ⟨k, hk, rfl⟩ := List.mem_range'.mp hi
  have ha : k < positions.length := by omega
  have hb : 1 + k < positions.length := by omega
  simp [List.getD, List.getElem?_replicate, ha, hb, sub_self]

theorem turnIssues_nil (positions : List Vec3) : turnIssues positions [] = [] := by
  unfold turnIssues
  norm_num

/-- C6: the checkers are total functions that degrade gracefully: a frame
with no resolvable pose falls back to the ego-frame position; a track
shorter than 3 yields no issues; a track whose (defaulted) timestamps are
all equal — every Δt zero — yields no issues rather than dividing by zero;
and in the motion-alignment check an unavailable motion vector or a
displacement below the regime minimum suppresses the check with no issue
reported. -/
theorem checks_degrade_gracefully (track : List (ℤ × Obj)) (poses : ℤ → Option Ins)
    (obj : Obj) (frameIdx : ℕ) (c : ℤ) :
    (∀ fid o, poses fid = none → worldPos poses fid o = o.translation) ∧
    (track.length < minTrackLength → checkTrajectoryConsistency track poses = []) ∧
    (track.map (fun s => s.2.timestamp.getD (s.1 * 100000000)) =
        List.replicate track.length c →
      checkTrajectoryConsistency track poses = []) ∧
    (estimateMotionVector track frameIdx poses = none →
      checkMotionAlignment obj track frameIdx poses = []) ∧
    (∀ mv, estimateMotionVector track frameIdx poses = some mv →
      planarNorm mv < minMotionThreshold (classifyMotionState (planarNorm mv / 0.1)) →
      checkMotionAlignment obj track frameIdx poses = []) := by
  refine ⟨?_, ?_, ?_, fun h => cma_no_mv h, fun mv h1 h2 => cma_below_threshold h1 h2⟩
  · intro fid o hfid
    unfold worldPos
    rw [hfid]
  · intro hshort
    unfold checkTrajectoryConsistency
    rw [if_pos hshort]
  · intro htc
    by_cases hshort : track.length < minTrackLength
    · unfold checkTrajectoryConsistency
      rw [if_pos hshort]
    · simp only [checkTrajectoryConsistency]
      rw [if_neg hshort, htc]
      have hlen : (track.map (fun s => worldPos poses s.1 s.2)).length = track.length :=
        List.length_map _ _
      rw [← hlen, velList_replicate, accIssues_nil, transitionIssues_nil,
        continuityIssues_replicate, turnIssues_nil]
      simp

/-- A two-sample track: too short for trajectory checks. -/
noncomputable def wTrack6 : List (ℤ × Obj) :=
  [(0, ⟨⟨0, 0, 0⟩, [], [], 0, "car", none, none⟩), (1, ⟨⟨9, 9, 9⟩, [], [], 0, "car", none, none⟩)]

/-- A three-sample track whose samples all carry the same timestamp. -/
noncomputable def wTrack6b : List (ℤ × Obj) :=
  [(0, ⟨⟨0, 0, 0⟩, [], [], 0, "car", some 7, none⟩),
   (1, ⟨⟨3, 0, 0⟩, [], [], 0, "car", some 7, none⟩),
   (2, ⟨⟨9, 0, 0⟩, [], [], 0, "car", some 7, none⟩)]

theorem checks_degrade_gracefully_witness :
    checkTrajectoryConsistency wTrack6 noPoses = [] ∧
    checkTrajectoryConsistency wTrack6b noPoses = [] := by
  constructor
  · exact (checks_degrade_gracefully wTrack6 noPoses ⟨⟨0, 0, 0⟩, [], [], 0, "car", none, none⟩
      0 0).2.1 (by norm_num [wTrack6, minTrackLength])
  · exact (checks_degrade_gracefully wTrack6b noPoses ⟨⟨0, 0, 0⟩, [], [], 0, "car", none, none⟩
      0 7).2.2.1 (by norm_num [wTrack6b, List.replicate])

theorem planarNorm_le_norm3 (v : Vec3) : planarNorm v ≤ norm3 v := by
  unfold planarNorm norm3
  apply Real.sqrt_le_sqrt
  nlinarith [sq_nonneg v.z]

theorem length_filterMap_of_forall_some {α β : Type} {f : α → Option β} :
    ∀ {l : List α}, (∀ a ∈ l, (f a).isSome) → (l.filterMap f).length = l.length := by
  intro l
  induction l with
  | nil => intro; rfl
  | cons a t ih =>
    intro h
    rw [List.filterMap_cons]
    cases hfa : f a with
    | none => exact absurd (h a (by simp)) (by simp [hfa])
    | some b => simp [ih (fun x hx => h x (by simp [hx]))]

/-- Static sample at `t = 0`. -/
noncomputable def cObj9a : Obj := ⟨⟨0, 0, 0⟩, [], [], 0, "car", some 0, none⟩

/-- Static sample at `t = 10` s. -/
noncomputable def cObj9b : Obj := ⟨⟨0, 0, 0⟩, [], [], 0, "car", some 10000000000, none⟩

/-- Sample at `t = 20` s after a `0.9` m jump. -/
noncomputable def cObj9c : Obj := ⟨⟨0.9, 0, 0⟩, [], [], 0, "car", some 20000000000, none⟩

/-- Track whose *final* interval is static (`0.09` m/s) yet jumps `0.9` m. -/
noncomputable def cTrack9 : List (ℤ × Obj) := [(0, cObj9a), (1, cObj9b), (2, cObj9c)]

theorem c9_positions_eval :
    cTrack9.map (fun s => worldPos noPoses s.1 s.2) =
      [⟨0, 0, 0⟩, ⟨0, 0, 0⟩, ⟨0.9, 0, 0⟩] := by
  norm_num [cTrack9, cObj9a, cObj9b, cObj9c, worldPos, noPoses]

theorem c9_timestamps_eval :
    cTrack9.map (fun s => s.2.timestamp.getD (s.1 * 100000000)) =
      [0, 10000000000, 20000000000] := by
  norm_num [cTrack9, cObj9a, cObj9b, cObj9c]

theorem c9_planar_zero : planarNorm (⟨0, 0, 0⟩ : Vec3) = 0 := by
  norm_num [planarNorm, Real.sqrt_zero]

theorem c9_planar_jump : planarNorm (⟨9 / 10, 0, 0⟩ : Vec3) = 9 / 10 := by
  unfold planarNorm
  norm_num
  rw [show (81 : ℝ) = 9 ^ 2 by norm_num, show (100 : ℝ) = 10 ^ 2 by norm_num,
    Real.sqrt_sq (by norm_num : (0 : ℝ) ≤ 9), Real.sqrt_sq (by norm_num : (0 : ℝ) ≤ 10)]

theorem c9_norm3_zero : norm3 (⟨0, 0, 0⟩ : Vec3) = 0 := by
  norm_num [norm3, Real.sqrt_zero]

theorem c9_norm3_jump : norm3 (⟨9 / 10, 0, 0⟩ : Vec3) = 9 / 10 := by
  unfold norm3
  norm_num
  rw [show (81 : ℝ) = 9 ^ 2 by norm_num, show (100 : ℝ) = 10 ^ 2 by norm_num,
    Real.sqrt_sq (by norm_num : (0 : ℝ) ≤ 9), Real.sqrt_sq (by norm_num : (0 : ℝ) ≤ 10)]

theorem c9_velocities_eval :
    velList [⟨0, 0, 0⟩, ⟨0, 0, 0⟩, ⟨0.9, 0, 0⟩] [0, 10000000000, 20000000000] = [0, 0.09] := by
  unfold velList
  norm_num [List.range', List.filterMap_cons, List.getD, c9_planar_zero, c9_planar_jump]

theorem c9_acc_eval :
    accIssues [0, 10000000000, 20000000000] [0, 0.09] = [] := by
  unfold accIssues
  norm_num [List.range', List.filterMap_cons, List.getD, List.enum]
  rw [abs_of_nonneg (by norm_num : (0 : ℝ) ≤ 9 / 1000)]
  norm_num

theorem c9_trans_eval : transitionIssues [0, 0.09] = [] := by
  unfold transitionIssues countTransitions
  norm_num [classifyMotionState, staticThreshold, lowSpeedThreshold, List.countP,
    List.countP.go]

theorem c9_cont_eval :
    continuityIssues [⟨0, 0, 0⟩, ⟨0, 0, 0⟩, ⟨0.9, 0, 0⟩] [0, 10000000000, 20000000000]
      [0, 0.09] = [] := by
  unfold continuityIssues
  norm_num [List.range', List.flatMap_cons, List.getD, c9_norm3_zero, c9_norm3_jump,
    staticThreshold]

theorem c9_turn_eval :
    turnIssues [⟨0, 0, 0⟩, ⟨0, 0, 0⟩, ⟨0.9, 0, 0⟩] [0, 0.09] = [] := by
  unfold turnIssues
  norm_num

/-- C9 counterexample: on `cTrack9` the final interval's planar speed is
`0.09` m/s — classified static — and its displacement is `0.9` m > `0.5` m,
yet `check_trajectory_consistency` returns no issues: the guard
`i < len(velocities)` skips the static-jump check on the last interval (and
the first interval, which is also static, is followed by that same `0.9` m
displacement, so the claim fails under either reading of "followed by"). -/
theorem static_jump_final_interval_unchecked :
    velList (cTrack9.map (fun s => worldPos noPoses s.1 s.2))
        (cTrack9.map (fun s => s.2.timestamp.getD (s.1 * 100000000))) = [0, 0.09] ∧
    (0 : ℝ) < staticThreshold ∧ (0.09 : ℝ) < staticThreshold ∧
    planarNorm ((⟨0.9, 0, 0⟩ : Vec3) - ⟨0, 0, 0⟩) = 0.9 ∧ (0.5 : ℝ) < 0.9 ∧
    checkTrajectoryConsistency cTrack9 noPoses = [] := by
  have hv : velList (cTrack9.map (fun s => worldPos noPoses s.1 s.2))
      (cTrack9.map (fun s => s.2.timestamp.getD (s.1 * 100000000))) = [0, 0.09] := by
    rw [c9_positions_eval, c9_timestamps_eval, c9_velocities_eval]
  refine ⟨hv, by norm_num [staticThreshold], by norm_num [staticThreshold], ?_, by norm_num, ?_⟩
  · have h := c9_planar_jump
    norm_num at h ⊢
    exact h
  · simp only [checkTrajectoryConsistency]
    rw [if_neg (by norm_num [cTrack9, minTrackLength])]
    rw [c9_positions_eval, c9_timestamps_eval, c9_velocities_eval,
      c9_acc_eval, c9_trans_eval, c9_cont_eval, c9_turn_eval]
    rfl

/-- C9 amended: on a track of length at least 3 whose (defaulted)
timestamps strictly increase, an interval *other than the last* whose
planar speed is below the 0.1 m/s static threshold and whose planar
displacement exceeds 0.5 m produces the "position jump while static"
issue (reported with the 3D displacement); the final interval of a track
is never subjected to this check. -/
theorem static_jump_issue_nonfinal (track : List (ℤ × Obj)) (poses : ℤ → Option Ins)
    (i : ℕ) (h3 : minTrackLength ≤ track.length)
    (hinc : ∀ j, j + 1 < track.length →
      (track.map (fun s => s.2.timestamp.getD (s.1 * 100000000))).getD j 0 <
        (track.map (fun s => s.2.timestamp.getD (s.1 * 100000000))).getD (j + 1) 0)
    (hi1 : 1 ≤ i) (hi2 : i + 1 < track.length)
    (hstatic : (velList (track.map (fun s => worldPos poses s.1 s.2))
          (track.map (fun s => s.2.timestamp.getD (s.1 * 100000000)))).getD (i - 1) 0 <
        staticThreshold)
    (hjump : 0.5 < planarNorm ((track.map (fun s => worldPos poses s.1 s.2)).getD i 0 -
        (track.map (fun s => worldPos poses s.1 s.2)).getD (i - 1) 0)) :
    Issue.staticJump i (norm3 ((track.map (fun s => worldPos poses s.1 s.2)).getD i 0 -
        (track.map (fun s => worldPos poses s.1 s.2)).getD (i - 1) 0)) ∈
      checkTrajectoryConsistency track poses := by
  have hplen : (track.map (fun s => worldPos poses s.1 s.2)).length = track.length :=
    List.length_map _ _
  have hvlen : (velList (track.map (fun s => worldPos poses s.1 s.2))
      (track.map (fun s => s.2.timestamp.getD (s.1 * 100000000)))).length =
      track.length - 1 := by
    unfold velList
    rw [length_filterMap_of_forall_some, List.length_range', hplen]
    intro a ha
    obtain ⟨k, hk, rfl⟩ := List.mem_range'.mp ha
    have hk2 : k + 1 < track.length := by omega
    have hlt := hinc k hk2
    have hidx : 1 + 1 * k = k + 1 := by omega
    rw [hidx]
    have hdt : (0 : ℝ) <
        (((track.map (fun s => s.2.timestamp.getD (s.1 * 100000000))).getD (k + 1) 0 -
          (track.map (fun s => s.2.timestamp.getD (s.1 * 100000000))).getD (k + 1 - 1) 0 : ℤ) : ℝ) /
          1000000000 := by
      apply div_pos _ (by norm_num)
      rw [show k + 1 - 1 = k by omega]
      exact_mod_cast sub_pos.mpr hlt
    rw [if_pos hdt]
    rfl
  simp only [checkTrajectoryConsistency]
  rw [if_neg (by omega : ¬ track.length < minTrackLength)]
  refine List.mem_append_left _ (List.mem_append_right _ ?_)
  unfold continuityIssues
  apply List.mem_flatMap.mpr
  refine ⟨i, List.mem_range'.mpr ⟨i - 1, by omega, by omega⟩, ?_⟩
  have hdt : (0 : ℝ) <
      (((track.map (fun s => s.2.timestamp.getD (s.1 * 100000000))).getD i 0 -
        (track.map (fun s => s.2.timestamp.getD (s.1 * 100000000))).getD (i - 1) 0 : ℤ) : ℝ) /
        1000000000 := by
    apply div_pos _ (by norm_num)
    have hlt := hinc (i - 1) (by omega)
    rw [show i - 1 + 1 = i by omega] at hlt
    exact_mod_cast sub_pos.mpr hlt
  rw [if_pos hdt]
  apply List.mem_append_right
  have hguard : i < (velList (track.map (fun s => worldPos poses s.1 s.2))
      (track.map (fun s => s.2.timestamp.getD (s.1 * 100000000)))).length ∧
      (velList (track.map (fun s => worldPos poses s.1 s.2))
        (track.map (fun s => s.2.timestamp.getD (s.1 * 100000000)))).getD (i - 1) 0 <
        staticThreshold ∧
      0.5 < norm3 ((track.map (fun s => worldPos poses s.1 s.2)).getD i 0 -
        (track.map (fun s => worldPos poses s.1 s.2)).getD (i - 1) 0) := by
    refine ⟨by omega, hstatic, lt_of_lt_of_le hjump (planarNorm_le_norm3 _)⟩
  rw [if_pos hguard]
  simp

/-- Witness sample at the origin, `t = 0`. -/
noncomputable def wObj9a : Obj := ⟨⟨0, 0, 0⟩, [], [], 0, "car", some 0, none⟩

/-- Witness sample `0.9` m on, `t = 10` s. -/
noncomputable def wObj9b : Obj := ⟨⟨0.9, 0, 0⟩, [], [], 0, "car", some 10000000000, none⟩

/-- Witness sample `1.8` m on, `t = 20` s. -/
noncomputable def wObj9c : Obj := ⟨⟨1.8, 0, 0⟩, [], [], 0, "car", some 20000000000, none⟩

/-- Witness track: crawling at `0.09` m/s in `0.9` m jumps every 10 s. -/
noncomputable def wTrack9 : List (ℤ × Obj) := [(0, wObj9a), (1, wObj9b), (2, wObj9c)]

theorem w9_positions_eval :
    wTrack9.map (fun s => worldPos noPoses s.1 s.2) =
      [⟨0, 0, 0⟩, ⟨0.9, 0, 0⟩, ⟨1.8, 0, 0⟩] := by
  norm_num [wTrack9, wObj9a, wObj9b, wObj9c, worldPos, noPoses]

theorem w9_timestamps_eval :
    wTrack9.map (fun s => s.2.timestamp.getD (s.1 * 100000000)) =
      [0, 10000000000, 20000000000] := by
  norm_num [wTrack9, wObj9a, wObj9b, wObj9c]

theorem w9_velocities_eval :
    velList [⟨0, 0, 0⟩, ⟨0.9, 0, 0⟩, ⟨1.8, 0, 0⟩] [0, 10000000000, 20000000000] =
      [0.09, 0.09] := by
  unfold velList
  norm_num [List.range', List.filterMap_cons, List.getD, c9_planar_jump]

theorem static_jump_issue_nonfinal_witness :
    Issue.staticJump 1 (norm3 ((wTrack9.map (fun s => worldPos noPoses s.1 s.2)).getD 1 0 -
        (wTrack9.map (fun s => worldPos noPoses s.1 s.2)).getD 0 0)) ∈
      checkTrajectoryConsistency wTrack9 noPoses := by
  have hlen : wTrack9.length = 3 := by norm_num [wTrack9]
  exact static_jump_issue_nonfinal wTrack9 noPoses 1
    (by rw [hlen]; norm_num [minTrackLength])
    (by
      intro j hj
      rw [hlen] at hj
      rw [w9_timestamps_eval]
      have hj2 : j = 0 ∨ j = 1 := by omega
      rcases hj2 with rfl | rfl <;> norm_num [List.getD])
    (by norm_num)
    (by rw [hlen]; norm_num)
    (by
      rw [w9_positions_eval, w9_timestamps_eval, w9_velocities_eval]
      norm_num [List.getD, staticThreshold])
    (by
      rw [w9_positions_eval]
      have h := c9_planar_jump
      norm_num [List.getD] at h ⊢
      rw [h]
      norm_num)

end RulesChecker
